import Mathlib

/-!
# RemoteExecuteNode (tensorflow/core/distributed_runtime/eager/remote_execute_node.cc)

A shallow embedding of `RemoteExecuteNode::Prepare` and `RemoteExecuteNode::RunAsync`
(with the completion callback it hands to the eager client).

The collaborators of the node (op registries, shape-inference context, tensor
handles, the eager client) live outside this source file.  Their calls are
recorded, in order, in a trace of events; the values they return are taken as
parameters (oracles), so that every theorem below holds for every possible
behaviour of the collaborators.
-/

namespace tensorflow
namespace eager

/-! ## Data model -/

/-- Non-OK codes of `tensorflow::error::Code`. -/
inductive Code
  | CANCELLED | UNKNOWN | INVALID_ARGUMENT | DEADLINE_EXCEEDED | NOT_FOUND
  | ALREADY_EXISTS | PERMISSION_DENIED | UNAUTHENTICATED | RESOURCE_EXHAUSTED
  | FAILED_PRECONDITION | ABORTED | OUT_OF_RANGE | UNIMPLEMENTED | INTERNAL
  | UNAVAILABLE | DATA_LOSS
  deriving DecidableEq, Repr

/-- A `tensorflow::Status`: OK, or an error code with its message. -/
inductive Status
  | OK
  | error (code : Code) (message : String)
  deriving DecidableEq, Repr

/-- The test `status.ok()`. -/
def Status.ok : Status → Bool
  | Status.OK => true
  | Status.error _ _ => false

/-- Result of a call that returns a `Status` and, when that status is OK, fills
an out-parameter (`LookUp(op, &op_reg_data)`, `InferenceShape(ctx, &shape)`). -/
inductive StatusOr (α : Type)
  | value (a : α)
  | error (code : Code) (message : String)

/-- A `TensorHandle*`; handles are compared by pointer identity. -/
abbrev TensorHandle := Nat

/-- A `Device*`. -/
abbrev Device := Nat

/-- Modelled from the spec: a `shape_inference::ShapeHandle`, declared outside
this file.  A default-constructed handle is `null`; otherwise it denotes a
shape of unknown rank or a list of dimension sizes (-1 for an unknown one). -/
inductive ShapeHandle
  | null
  | unknown_rank
  | dims (sizes : List Int)
  deriving DecidableEq, Repr

/-- Modelled from the spec: a `TensorShapeProto` of the response (the wire
message is declared outside this file): the list of dimension sizes. -/
abbrev TensorShapeProto := List Int

/-- The node definition `ndef_`; `op` is the op name looked up by `Prepare`. -/
structure NodeDef where
  name : String
  op : String
  deriving DecidableEq, Repr

/-- Modelled from the spec: the op schema (`OpDef`), declared outside this
file.  The inference context derives its number of outputs from the schema and
the node definition; that derivation is the parameter `output_count`. -/
structure OpDef where
  name : String
  output_count : NodeDef → Nat

/-- Modelled from the spec: the `shape_inference::InferenceContext`, declared
outside this file: the graph-def version, node definition and schema it is
bound to, its vector of input shapes and its vector of output shapes. -/
structure InferenceContext where
  graph_def_version : Nat
  node_def : NodeDef
  op_def : OpDef
  inputs : List ShapeHandle
  outputs : List ShapeHandle

/-- Modelled from the spec: the constructor of the inference context
(`ShapeInferenceContext(...)`): bound to the version, node definition, schema
and input-shape vector; its outputs start as unset handles. -/
def InferenceContext.create (graph_def_version : Nat) (node_def : NodeDef) (op_def : OpDef)
    (input_shapes : List ShapeHandle) : InferenceContext :=
  { graph_def_version := graph_def_version
    node_def := node_def
    op_def := op_def
    inputs := input_shapes
    outputs := List.replicate (op_def.output_count node_def) ShapeHandle.null }

/-- Modelled from the spec: `.SetInput(i, shape)` binds `shape` as the i-th
input of the context. -/
def InferenceContext.SetInput (c : InferenceContext) (i : Nat) (shape : ShapeHandle) :
    InferenceContext :=
  { c with inputs := c.inputs.set i shape }

/-- Modelled from the spec: `.num_outputs()`. -/
def InferenceContext.num_outputs (c : InferenceContext) : Nat :=
  c.outputs.length

/-- Modelled from the spec: `.output(i)`, the i-th output shape handle (the
unset handle when `i` is not an output index; `Prepare` never asks for one). -/
def InferenceContext.output (c : InferenceContext) (i : Nat) : ShapeHandle :=
  c.outputs.getD i ShapeHandle.null

/-- An op's registered shape-inference function: run within a context, it
returns a status and leaves the context updated. -/
abbrev OpShapeInferenceFn := InferenceContext → Status × InferenceContext

/-- Modelled from the spec: `.Run(fn)` invokes the shape-inference function
within the context and returns its status. -/
def InferenceContext.Run (c : InferenceContext) (fn : OpShapeInferenceFn) :
    Status × InferenceContext :=
  fn c

/-- The `OpRegistrationData` a lookup yields: schema and inference function. -/
structure OpRegistrationData where
  op_def : OpDef
  shape_inference_fn : OpShapeInferenceFn

/-- A `FunctionDef` of the function library (only its presence is tested). -/
structure FunctionDef where
  signature_name : String
  deriving DecidableEq, Repr

/-- The graph-local function library `lib_def_`, declared outside this file:
`Find` (a null pointer, here `none`, when the name is absent) and `LookUp`. -/
structure FunctionLibraryDefinition where
  Find : String → Option FunctionDef
  LookUp : String → StatusOr OpRegistrationData

/-- The global registry `OpRegistry::Global()`, declared outside this file. -/
structure OpRegistry where
  LookUp : String → StatusOr OpRegistrationData

/-- A `RemoteTensorHandle` of a decrement item. -/
structure RemoteTensorHandle where
  op_id : Int
  output_num : Int
  deriving DecidableEq, Repr

/-- An `Operation` of a queue item (only its name is read here). -/
structure Operation where
  name : String
  deriving DecidableEq, Repr

/-- A `QueueItem` of the request: the oneof holds an operation, a handle to
decrement, or nothing. -/
inductive QueueItem
  | operation (op : Operation)
  | handle_to_decref (handle : RemoteTensorHandle)
  | not_set
  deriving DecidableEq, Repr

/-- The `EnqueueRequest` owned by the node. -/
structure EnqueueRequest where
  queue : List QueueItem
  deriving DecidableEq, Repr

/-- A `QueueResponse`: the output shapes of one operation. -/
structure QueueResponse where
  shape : List TensorShapeProto
  deriving DecidableEq, Repr

/-- The `EnqueueResponse` buffer filled by the eager client. -/
structure EnqueueResponse where
  queue_response : List QueueResponse
  deriving DecidableEq, Repr

/-- The members of a `RemoteExecuteNode` read by `Prepare` and `RunAsync`. -/
structure RemoteExecuteNode where
  request_ : EnqueueRequest
  lib_def_ : FunctionLibraryDefinition
  ndef_ : NodeDef
  device_ : Device
  inputs_ : List TensorHandle
  retvals_ : List TensorHandle

/-- What a `VLOG(3)` line says. -/
inductive LogLine
  | Issuing (rpc_description : String)
  | Completed (rpc_description : String)
  | Failed (rpc_description : String) (status : Status)
  deriving DecidableEq, Repr

/-- The observable calls the node makes on its collaborators. -/
inductive Event
  | Find (op : String)
  | LibLookUp (op : String)
  | GlobalLookUp (op : String)
  | InferenceShape (handle : TensorHandle)
  | SetInferenceShape (handle : TensorHandle) (shape : ShapeHandle)
  | VLog (line : LogLine)
  | Ref (handle : TensorHandle)
  | Unref (handle : TensorHandle)
  | StreamingEnqueueAsync (request : EnqueueRequest)
  | SetRemoteShape (handle : TensorHandle) (shape : TensorShapeProto) (device : Device)
  | LogError (handle : TensorHandle) (status : Status)
  | Poison (handle : TensorHandle) (status : Status)
  | done (status : Status)
  | delete_response
  deriving DecidableEq, Repr

/-- The calls made so far, oldest first. -/
abbrev Trace := List Event

/-- How a run of the code ends: it returns; or a `DCHECK` fails (the process
aborts); or it indexes a vector or repeated field out of range, after which the
source gives no behaviour. -/
inductive Exec (α : Type)
  | returned (value : α) (trace : Trace)
  | check_failed (trace : Trace)
  | out_of_range (trace : Trace)
  deriving DecidableEq, Repr

/-- The calls made during a run, however it ended. -/
def Exec.trace {α : Type} : Exec α → Trace
  | Exec.returned _ tr => tr
  | Exec.check_failed tr => tr
  | Exec.out_of_range tr => tr

/-- What the tensor handles answer (they are declared outside this file).
`InferenceShape` is the status and shape a handle reports to the inference
context; `SetRemoteShape` is the status of a remote-shape update, which may
depend on everything that happened before the call. -/
structure Handles where
  InferenceShape : TensorHandle → StatusOr ShapeHandle
  SetRemoteShape : Trace → TensorHandle → TensorShapeProto → Device → Status

/-- Settings fixed outside this file: whether `DCHECK`s are compiled in (no
`NDEBUG`), and the constant `TF_GRAPH_DEF_VERSION`. -/
structure Build where
  dcheck : Bool
  graph_def_version : Nat

/-! ## Prepare -/

/-- The loop of `Prepare` over the inputs, from index `i` on (`hs` is the
rest of `inputs_`): query the inference shape of each input handle, return its
error if it has one, else bind the shape as input `i` of the context. -/
def Prepare.bind_inputs (handles : Handles) :
    List TensorHandle → Nat → InferenceContext → Trace → StatusOr InferenceContext × Trace
  | [], _, c, tr => (StatusOr.value c, tr)
  | h :: hs, i, c, tr =>
    match handles.InferenceShape h with
    | StatusOr.error code msg => (StatusOr.error code msg, tr ++ [Event.InferenceShape h])
    | StatusOr.value shape =>
      Prepare.bind_inputs handles hs (i + 1) (c.SetInput i shape) (tr ++ [Event.InferenceShape h])

/-- The loop of `Prepare` over the outputs, `is` being the indices still to
do: `retvals_[i]->SetInferenceShape(&inference_context, output(i))`. -/
def Prepare.set_outputs (c : InferenceContext) (retvals : List TensorHandle) :
    List Nat → Trace → Exec Status
  | [], tr => Exec.returned Status.OK tr
  | i :: is, tr =>
    match retvals[i]? with
    | none => Exec.out_of_range tr
    | some h =>
      Prepare.set_outputs c retvals is (tr ++ [Event.SetInferenceShape h (c.output i)])

/-- The op lookup of `Prepare`: the function library when its `Find` is not
null, else the global registry. -/
def Prepare.lookup (global : OpRegistry) (n : RemoteExecuteNode) :
    StatusOr OpRegistrationData × Trace :=
  if (n.lib_def_.Find n.ndef_.op).isNone then
    (global.LookUp n.ndef_.op, [Event.Find n.ndef_.op, Event.GlobalLookUp n.ndef_.op])
  else
    (n.lib_def_.LookUp n.ndef_.op, [Event.Find n.ndef_.op, Event.LibLookUp n.ndef_.op])

/-- Shape inference of `Prepare`, once the registration data is known. -/
def Prepare.infer (build : Build) (handles : Handles) (n : RemoteExecuteNode)
    (op_reg_data : OpRegistrationData) (tr : Trace) : Exec Status :=
  let inference_context := InferenceContext.create build.graph_def_version n.ndef_
    op_reg_data.op_def (List.replicate n.inputs_.length ShapeHandle.null)
  match Prepare.bind_inputs handles n.inputs_ 0 inference_context tr with
  | (StatusOr.error code msg, tr) => Exec.returned (Status.error code msg) tr
  | (StatusOr.value inference_context, tr) =>
    match inference_context.Run op_reg_data.shape_inference_fn with
    | (Status.error code msg, _) => Exec.returned (Status.error code msg) tr
    | (Status.OK, inference_context) =>
      if build.dcheck && inference_context.num_outputs != n.retvals_.length then
        Exec.check_failed tr
      else
        Prepare.set_outputs inference_context n.retvals_
          (List.range inference_context.num_outputs) tr

/-- The method `RemoteExecuteNode::Prepare`. -/
def Prepare (build : Build) (global : OpRegistry) (handles : Handles)
    (n : RemoteExecuteNode) : Exec Status :=
  if n.retvals_.isEmpty then Exec.returned Status.OK []
  else
    match Prepare.lookup global n with
    | (StatusOr.error code msg, tr) => Exec.returned (Status.error code msg) tr
    | (StatusOr.value op_reg_data, tr) => Prepare.infer build handles n op_reg_data tr

/-! ## RunAsync -/

/-- The name pushed on `ops` for one queue item. -/
def RunAsync.item_name : QueueItem → String
  | QueueItem.operation op => op.name
  | QueueItem.handle_to_decref handle =>
    "DeleteHandle(" ++ toString handle.op_id ++ ":" ++ toString handle.output_num ++ ")"
  | QueueItem.not_set => "DeleteHandle(" ++ toString (0 : Int) ++ ":" ++ toString (0 : Int) ++ ")"

/-- The string `rpc_description`: filled only when `VLOG(3)` is on. -/
def RunAsync.rpc_description (vlog_is_on : Bool) (request : EnqueueRequest) : String :=
  if vlog_is_on then
    "RemoteOperation(" ++ String.intercalate ", " (request.queue.map RunAsync.item_name) ++ ")"
  else ""

/-- The statement `VLOG(3) << line`: a log line when `VLOG(3)` is on. -/
def vlog (vlog_is_on : Bool) (line : LogLine) : Trace :=
  if vlog_is_on then [Event.VLog line] else []

/-- What the completion callback captures by value (the response pointer and
`done` are captured too; the response contents are given when it is fired and
the call of `done` is an event). -/
structure Callback where
  inputs : List TensorHandle
  retvals : List TensorHandle
  device : Device
  rpc_description : String

/-- The method `RemoteExecuteNode::RunAsync` up to and including the call of
`StreamingEnqueueAsync`: the calls made, and the callback handed to the client. -/
def RunAsync (vlog_is_on : Bool) (n : RemoteExecuteNode) (tr : Trace) : Trace × Callback :=
  let rpc_description := RunAsync.rpc_description vlog_is_on n.request_
  let tr := tr ++ vlog vlog_is_on (LogLine.Issuing rpc_description)
  let tr := tr ++ n.inputs_.map Event.Ref
  let tr := tr ++ n.retvals_.map Event.Ref
  (tr ++ [Event.StreamingEnqueueAsync n.request_],
   { inputs := n.inputs_, retvals := n.retvals_, device := n.device_,
     rpc_description := rpc_description })

/-- The loop of the callback over `retvals`, from index `i` on (`hs` is the
rest of `retvals`): on OK set the remote shape from
`response->queue_response(0).shape(i)` and log an error if that fails, else
poison the handle; then release it. -/
def Callback.finalize (handles : Handles) (status : Status) (response : EnqueueResponse)
    (device : Device) : List TensorHandle → Nat → Trace → Exec Unit
  | [], _, tr => Exec.returned () tr
  | h :: hs, i, tr =>
    if status.ok then
      match response.queue_response[0]? with
      | none => Exec.out_of_range tr
      | some queue_response =>
        match queue_response.shape[i]? with
        | none => Exec.out_of_range tr
        | some shape =>
          let s := handles.SetRemoteShape tr h shape device
          let tr := tr ++ [Event.SetRemoteShape h shape device]
          let tr := if s.ok then tr else tr ++ [Event.LogError h status]
          Callback.finalize handles status response device hs (i + 1) (tr ++ [Event.Unref h])
    else
      Callback.finalize handles status response device hs (i + 1)
        (tr ++ [Event.Poison h status, Event.Unref h])

/-- The completion callback, fired by the client with `status` once the
response buffer holds `response`. -/
def Callback.fire (handles : Handles) (vlog_is_on : Bool) (cb : Callback)
    (response : EnqueueResponse) (status : Status) (tr : Trace) : Exec Unit :=
  let tr := tr ++ cb.inputs.map Event.Unref
  let tr := tr ++ (if status.ok then vlog vlog_is_on (LogLine.Completed cb.rpc_description)
    else vlog vlog_is_on (LogLine.Failed cb.rpc_description status))
  match Callback.finalize handles status response cb.device cb.retvals 0 tr with
  | Exec.returned _ tr => Exec.returned () (tr ++ [Event.done status, Event.delete_response])
  | Exec.check_failed tr => Exec.check_failed tr
  | Exec.out_of_range tr => Exec.out_of_range tr

/-- A whole asynchronous execution in which the client fires the completion
callback once: `RunAsync`, then the callback with the client's response and
status. -/
def run_once (handles : Handles) (vlog_at_dispatch vlog_at_completion : Bool)
    (n : RemoteExecuteNode) (response : EnqueueResponse) (status : Status) : Exec Unit :=
  let dispatched := RunAsync vlog_at_dispatch n []
  Callback.fire handles vlog_at_completion dispatched.2 response status dispatched.1

/-! ## Observations on traces -/

/-- The handles on which `Ref` was called, in call order. -/
def refs (tr : Trace) : List TensorHandle :=
  tr.filterMap fun e => match e with
    | Event.Ref h => some h
    | _ => none

/-- The handles on which `Unref` was called, in call order. -/
def unrefs (tr : Trace) : List TensorHandle :=
  tr.filterMap fun e => match e with
    | Event.Unref h => some h
    | _ => none

/-- Net change of the reference count of handle `h` over a trace: one up for
each `Ref`, one down for each `Unref`. -/
def ref_delta (tr : Trace) (h : TensorHandle) : Int :=
  ((refs tr).count h : Int) - ((unrefs tr).count h : Int)

/-- The `Poison` calls of a trace, in call order. -/
def poisons (tr : Trace) : List (TensorHandle × Status) :=
  tr.filterMap fun e => match e with
    | Event.Poison h st => some (h, st)
    | _ => none

/-- The `SetRemoteShape` calls of a trace, in call order. -/
def remote_shapes (tr : Trace) : List (TensorHandle × TensorShapeProto × Device) :=
  tr.filterMap fun e => match e with
    | Event.SetRemoteShape h shape device => some (h, shape, device)
    | _ => none

/-- The `SetInferenceShape` calls of a trace, in call order. -/
def inference_shapes (tr : Trace) : List (TensorHandle × ShapeHandle) :=
  tr.filterMap fun e => match e with
    | Event.SetInferenceShape h shape => some (h, shape)
    | _ => none

/-- The op names looked up in the global registry, in call order. -/
def global_lookups (tr : Trace) : List String :=
  tr.filterMap fun e => match e with
    | Event.GlobalLookUp op => some op
    | _ => none

/-- The arguments of the calls of `done` in a trace, in call order. -/
def dones (tr : Trace) : List Status :=
  tr.filterMap fun e => match e with
    | Event.done st => some st
    | _ => none

/-! ## Concrete nodes used as witnesses and counterexamples -/

/-- Handles whose inference shape is `[2,3]` and whose `SetRemoteShape`
always succeeds. -/
def good_handles : Handles :=
  { InferenceShape := fun _ => StatusOr.value (ShapeHandle.dims [2, 3])
    SetRemoteShape := fun _ _ _ _ => Status.OK }

/-- Handles whose `SetRemoteShape` always fails. -/
def failing_handles : Handles :=
  { InferenceShape := fun _ => StatusOr.value (ShapeHandle.dims [2, 3])
    SetRemoteShape := fun _ _ _ _ => Status.error Code.INVALID_ARGUMENT "bad shape" }

/-- A function library that knows no name. -/
def empty_library : FunctionLibraryDefinition :=
  { Find := fun _ => none
    LookUp := fun _ => StatusOr.error Code.NOT_FOUND "no such function" }

/-- An inference function that is the identity: output `i` is input `i`. -/
def identity_fn : OpShapeInferenceFn :=
  fun c => (Status.OK, { c with outputs := c.inputs })

/-- An inference function with a single output, the shape of the first input. -/
def first_input_fn : OpShapeInferenceFn :=
  fun c => (Status.OK, { c with outputs := c.inputs.take 1 })

/-- An inference function with a single output of unknown rank. -/
def unknown_shape_fn : OpShapeInferenceFn :=
  fun c => (Status.OK, { c with outputs := [ShapeHandle.unknown_rank] })

/-- A global registry that knows `Identity` (one output, the identity) and
`Split` (registered with a single output). -/
def example_registry : OpRegistry :=
  { LookUp := fun op =>
      if op = "Identity" then
        StatusOr.value { op_def := { name := "Identity", output_count := fun _ => 1 }
                         shape_inference_fn := identity_fn }
      else if op = "Split" then
        StatusOr.value { op_def := { name := "Split", output_count := fun _ => 1 }
                         shape_inference_fn := first_input_fn }
      else StatusOr.error Code.NOT_FOUND "Op type not registered" }

/-- A function library that defines a function named `Identity`, whose
outputs have unknown shape. -/
def shadowing_library : FunctionLibraryDefinition :=
  { Find := fun op => if op = "Identity" then some { signature_name := "Identity" } else none
    LookUp := fun op =>
      if op = "Identity" then
        StatusOr.value { op_def := { name := "Identity", output_count := fun _ => 1 }
                         shape_inference_fn := unknown_shape_fn }
      else StatusOr.error Code.NOT_FOUND "Op type not registered" }

/-- A node running `Identity` on input 1 with output 7. -/
def identity_node : RemoteExecuteNode :=
  { request_ := { queue := [QueueItem.operation { name := "Identity" }] }
    lib_def_ := empty_library
    ndef_ := { name := "id", op := "Identity" }
    device_ := 0
    inputs_ := [1]
    retvals_ := [7] }

/-- The same node with a library that shadows `Identity`. -/
def shadowed_node : RemoteExecuteNode :=
  { identity_node with lib_def_ := shadowing_library }

/-- A node whose op no registry knows, with output 7. -/
def unknown_op_node : RemoteExecuteNode :=
  { identity_node with ndef_ := { name := "nope", op := "NoSuchOp" } }

/-- A node without outputs whose op no registry knows. -/
def no_output_node : RemoteExecuteNode :=
  { request_ := { queue := [QueueItem.handle_to_decref { op_id := 5, output_num := 0 }] }
    lib_def_ := empty_library
    ndef_ := { name := "nope", op := "NoSuchOp" }
    device_ := 0
    inputs_ := [1]
    retvals_ := [] }

/-- A node with inputs 1 and 2 and outputs 7 and 8, on device 0. -/
def two_output_node : RemoteExecuteNode :=
  { request_ := { queue := [QueueItem.operation { name := "Split" }] }
    lib_def_ := empty_library
    ndef_ := { name := "split", op := "Split" }
    device_ := 0
    inputs_ := [1, 2]
    retvals_ := [7, 8] }

/-- A response whose first queue response carries two shapes. -/
def two_shape_response : EnqueueResponse :=
  { queue_response := [{ shape := [[2, 3], [4]] }] }

/-- A response whose first queue response carries a single shape. -/
def one_shape_response : EnqueueResponse :=
  { queue_response := [{ shape := [[2, 3]] }] }

/-! ## Lemmas on traces -/

theorem refs_append (a b : Trace) : refs (a ++ b) = refs a ++ refs b := by
  simp [refs]

theorem unrefs_append (a b : Trace) : unrefs (a ++ b) = unrefs a ++ unrefs b := by
  simp [unrefs]

theorem poisons_append (a b : Trace) : poisons (a ++ b) = poisons a ++ poisons b := by
  simp [poisons]

theorem remote_shapes_append (a b : Trace) :
    remote_shapes (a ++ b) = remote_shapes a ++ remote_shapes b := by
  simp [remote_shapes]

theorem inference_shapes_append (a b : Trace) :
    inference_shapes (a ++ b) = inference_shapes a ++ inference_shapes b := by
  simp [inference_shapes]

theorem dones_append (a b : Trace) : dones (a ++ b) = dones a ++ dones b := by
  simp [dones]

theorem refs_map_Ref (hs : List TensorHandle) : refs (hs.map Event.Ref) = hs := by
  induction hs with
  | nil => rfl
  | cons h hs ih => simp [refs] at ih ⊢; exact ih

theorem unrefs_map_Ref (hs : List TensorHandle) : unrefs (hs.map Event.Ref) = [] := by
  induction hs with
  | nil => rfl
  | cons h hs ih => simp [unrefs] at ih ⊢

theorem refs_map_Unref (hs : List TensorHandle) : refs (hs.map Event.Unref) = [] := by
  induction hs with
  | nil => rfl
  | cons h hs ih => simp [refs] at ih ⊢

theorem unrefs_map_Unref (hs : List TensorHandle) : unrefs (hs.map Event.Unref) = hs := by
  induction hs with
  | nil => rfl
  | cons h hs ih => simp [unrefs] at ih ⊢; exact ih

theorem poisons_map_Unref (hs : List TensorHandle) : poisons (hs.map Event.Unref) = [] := by
  induction hs with
  | nil => rfl
  | cons h hs ih => simp [poisons] at ih ⊢

theorem remote_shapes_map_Unref (hs : List TensorHandle) :
    remote_shapes (hs.map Event.Unref) = [] := by
  induction hs with
  | nil => rfl
  | cons h hs ih => simp [remote_shapes] at ih ⊢

theorem dones_map_Unref (hs : List TensorHandle) : dones (hs.map Event.Unref) = [] := by
  induction hs with
  | nil => rfl
  | cons h hs ih => simp [dones] at ih ⊢

theorem refs_vlog (b : Bool) (line : LogLine) : refs (vlog b line) = [] := by
  cases b <;> rfl

theorem unrefs_vlog (b : Bool) (line : LogLine) : unrefs (vlog b line) = [] := by
  cases b <;> rfl

theorem poisons_vlog (b : Bool) (line : LogLine) : poisons (vlog b line) = [] := by
  cases b <;> rfl

theorem remote_shapes_vlog (b : Bool) (line : LogLine) : remote_shapes (vlog b line) = [] := by
  cases b <;> rfl

theorem dones_vlog (b : Bool) (line : LogLine) : dones (vlog b line) = [] := by
  cases b <;> rfl

theorem global_lookups_append (a b : Trace) :
    global_lookups (a ++ b) = global_lookups a ++ global_lookups b := by
  simp [global_lookups]

/-! ## Lemmas on Prepare -/

/-- The input loop only queries inference shapes: it consults no registry and
sets no inference shape. -/
theorem Prepare.bind_inputs_trace (handles : Handles) (hs : List TensorHandle) (i : Nat)
    (c : InferenceContext) (tr : Trace) :
    ∃ mid, (Prepare.bind_inputs handles hs i c tr).2 = tr ++ mid
      ∧ global_lookups mid = [] ∧ inference_shapes mid = [] := by
  induction hs generalizing i c tr with
  | nil => exact ⟨[], by simp [Prepare.bind_inputs], rfl, rfl⟩
  | cons h hs ih =>
    cases hq : handles.InferenceShape h with
    | error code msg =>
      exact ⟨[Event.InferenceShape h], by simp [Prepare.bind_inputs, hq], rfl, rfl⟩
    | value shape =>
      obtain ⟨mid, hrun, hg, hi⟩ :=
        ih (i + 1) (c.SetInput i shape) (tr ++ [Event.InferenceShape h])
      refine ⟨[Event.InferenceShape h] ++ mid, ?_, ?_, ?_⟩
      · simp only [List.append_assoc] at hrun
        simp [Prepare.bind_inputs, hq, hrun]
      · rw [global_lookups_append, hg]; rfl
      · rw [inference_shapes_append, hi]; rfl

/-- When the input loop succeeds, every input handle reported a shape, and the
context holds these shapes, in order, at the indices the loop went through. -/
theorem Prepare.bind_inputs_value (handles : Handles) (hs : List TensorHandle) (i : Nat)
    (c c1 : InferenceContext) (tr : Trace) (done_shapes rest : List ShapeHandle)
    (hc : c.inputs = done_shapes ++ rest) (hi : done_shapes.length = i)
    (hrest : rest.length = hs.length)
    (hrun : (Prepare.bind_inputs handles hs i c tr).1 = StatusOr.value c1) :
    ∃ shapes,
      List.Forall₂ (fun h shape => handles.InferenceShape h = StatusOr.value shape) hs shapes
      ∧ c1 = { c with inputs := done_shapes ++ shapes } := by
  induction hs generalizing i c tr done_shapes rest with
  | nil =>
    refine ⟨[], List.Forall₂.nil, ?_⟩
    have hnil : rest = [] := List.length_eq_zero.mp hrest
    simp [Prepare.bind_inputs] at hrun
    subst hrun
    subst hnil
    cases c
    simp at hc
    simp [hc]
  | cons h hs ih =>
    cases hq : handles.InferenceShape h with
    | error code msg => simp [Prepare.bind_inputs, hq] at hrun
    | value shape =>
      cases rest with
      | nil => simp at hrest
      | cons r rest =>
        have hset : (c.SetInput i shape).inputs = (done_shapes ++ [shape]) ++ rest := by
          simp [InferenceContext.SetInput, hc, ← hi]
        obtain ⟨shapes, hall, hc1⟩ :=
          ih (i + 1) (c.SetInput i shape) (tr ++ [Event.InferenceShape h])
            (done_shapes ++ [shape]) rest hset (by simp [hi]) (by simpa using hrest)
            (by simpa [Prepare.bind_inputs, hq] using hrun)
        refine ⟨shape :: shapes, List.Forall₂.cons hq hall, ?_⟩
        rw [hc1]
        simp [InferenceContext.SetInput]

/-- The output loop returns OK exactly when every index it goes through is an
index of `retvals`; it then has called `SetInferenceShape` once per index. -/
theorem Prepare.set_outputs_returned (c : InferenceContext) (retvals : List TensorHandle)
    (is : List Nat) (tr : Trace) (hall : ∀ i ∈ is, i < retvals.length) :
    Prepare.set_outputs c retvals is tr
      = Exec.returned Status.OK
          (tr ++ is.map (fun i => Event.SetInferenceShape (retvals.getD i 0) (c.output i))) := by
  induction is generalizing tr with
  | nil => simp [Prepare.set_outputs]
  | cons i is ih =>
    have hi : i < retvals.length := hall i (List.mem_cons_self i is)
    have hget : retvals[i]? = some retvals[i] := List.getElem?_eq_getElem hi
    have hD : retvals.getD i 0 = retvals[i] := by
      simp [List.getD, hget]
    simp [Prepare.set_outputs, hget, hD,
      ih (tr ++ [Event.SetInferenceShape retvals[i] (c.output i)])
        (fun j hj => hall j (List.mem_cons_of_mem i hj))]

/-- The output loop reads `retvals` out of range as soon as an index it goes
through is not an index of `retvals`. -/
theorem Prepare.set_outputs_out_of_range (c : InferenceContext) (retvals : List TensorHandle)
    (is : List Nat) (tr : Trace) (hex : ∃ i ∈ is, retvals.length ≤ i) :
    ∃ tr1, Prepare.set_outputs c retvals is tr = Exec.out_of_range tr1 := by
  induction is generalizing tr with
  | nil => simp at hex
  | cons i is ih =>
    rcases Nat.lt_or_ge i retvals.length with hlt | hge
    · have hget : retvals[i]? = some retvals[i] := List.getElem?_eq_getElem hlt
      obtain ⟨j, hj, hjl⟩ := hex
      have hj2 : j ∈ is := by
        rcases List.mem_cons.mp hj with h | h
        · omega
        · exact h
      obtain ⟨tr1, h1⟩ := ih (tr ++ [Event.SetInferenceShape retvals[i] (c.output i)])
        ⟨j, hj2, hjl⟩
      exact ⟨tr1, by simp [Prepare.set_outputs, hget, h1]⟩
    · exact ⟨tr, by simp [Prepare.set_outputs, List.getElem?_eq_none hge]⟩

/-- The output loop consults no registry. -/
theorem Prepare.set_outputs_trace (c : InferenceContext) (retvals : List TensorHandle)
    (is : List Nat) (tr : Trace) :
    ∃ mid, (Prepare.set_outputs c retvals is tr).trace = tr ++ mid
      ∧ global_lookups mid = [] := by
  induction is generalizing tr with
  | nil => exact ⟨[], by simp [Prepare.set_outputs, Exec.trace], rfl⟩
  | cons i is ih =>
    cases hget : retvals[i]? with
    | none => exact ⟨[], by simp [Prepare.set_outputs, hget, Exec.trace], rfl⟩
    | some h =>
      obtain ⟨mid, hrun, hg⟩ := ih (tr ++ [Event.SetInferenceShape h (c.output i)])
      refine ⟨[Event.SetInferenceShape h (c.output i)] ++ mid, ?_, ?_⟩
      · simp only [List.append_assoc] at hrun
        simp [Prepare.set_outputs, hget, hrun]
      · rw [global_lookups_append, hg]; rfl

/-- The `SetInferenceShape` calls of a full output loop over `outputs.length`
indices, all of them indices of `retvals`, pair `retvals` with the outputs. -/
theorem inference_shapes_set_outputs (c : InferenceContext) (retvals : List TensorHandle)
    (hle : c.num_outputs ≤ retvals.length) :
    inference_shapes ((List.range c.num_outputs).map
        (fun i => Event.SetInferenceShape (retvals.getD i 0) (c.output i)))
      = List.zip retvals c.outputs := by
  apply List.ext_getElem?
  intro k
  have hmap : inference_shapes ((List.range c.num_outputs).map
        (fun i => Event.SetInferenceShape (retvals.getD i 0) (c.output i)))
      = (List.range c.num_outputs).map (fun i => (retvals.getD i 0, c.output i)) := by
    generalize List.range c.num_outputs = is
    induction is with
    | nil => rfl
    | cons i is ih => simp [inference_shapes] at ih ⊢; exact ih
  rw [hmap, List.zip_eq_zipWith, List.getElem?_zipWith, List.getElem?_map]
  unfold InferenceContext.num_outputs at hle ⊢
  rcases Nat.lt_or_ge k c.outputs.length with hlt | hge
  · have hk : k < retvals.length := by omega
    simp [List.getElem?_range hlt, List.getElem?_eq_getElem hlt, List.getElem?_eq_getElem hk,
      InferenceContext.output, List.getD]
  · have h1 : (List.range c.outputs.length)[k]? = none :=
      List.getElem?_eq_none (by simpa using hge)
    have h2 : c.outputs[k]? = none := List.getElem?_eq_none hge
    rw [h1, h2]
    cases retvals[k]? <;> rfl

/-- When every input handle reports a shape, the input loop succeeds and
leaves these shapes, in order, as the inputs of the context. -/
theorem Prepare.bind_inputs_ok (handles : Handles) (hs : List TensorHandle)
    (shapes : List ShapeHandle)
    (hall : List.Forall₂ (fun h shape => handles.InferenceShape h = StatusOr.value shape)
      hs shapes)
    (i : Nat) (c : InferenceContext) (tr : Trace) (done_shapes rest : List ShapeHandle)
    (hc : c.inputs = done_shapes ++ rest) (hi : done_shapes.length = i)
    (hrest : rest.length = hs.length) :
    (Prepare.bind_inputs handles hs i c tr).1
      = StatusOr.value { c with inputs := done_shapes ++ shapes } := by
  induction hs generalizing shapes i c tr done_shapes rest with
  | nil =>
    cases hall
    have hnil : rest = [] := List.length_eq_zero.mp hrest
    subst hnil
    cases c
    simp at hc
    simp [Prepare.bind_inputs, hc]
  | cons h hs ih =>
    cases hall with
    | cons hq hall =>
      rename_i shape shapes
      cases rest with
      | nil => simp at hrest
      | cons r rest =>
        have hset : (c.SetInput i shape).inputs = (done_shapes ++ [shape]) ++ rest := by
          simp [InferenceContext.SetInput, hc, ← hi]
        have hrec := ih shapes hall (i + 1) (c.SetInput i shape) (tr ++ [Event.InferenceShape h])
          (done_shapes ++ [shape]) rest hset (by simp [hi]) (by simpa using hrest)
        simp only [Prepare.bind_inputs, hq]
        rw [hrec]
        simp [InferenceContext.SetInput]

/-- Shape inference consults no registry. -/
theorem Prepare.infer_global_lookups (build : Build) (handles : Handles)
    (n : RemoteExecuteNode) (op_reg_data : OpRegistrationData) (tr : Trace) :
    global_lookups (Prepare.infer build handles n op_reg_data tr).trace = global_lookups tr := by
  unfold Prepare.infer
  dsimp only
  obtain ⟨mid, hmid, hg, _⟩ := Prepare.bind_inputs_trace handles n.inputs_ 0
    (InferenceContext.create build.graph_def_version n.ndef_ op_reg_data.op_def
      (List.replicate n.inputs_.length ShapeHandle.null)) tr
  rcases hb : Prepare.bind_inputs handles n.inputs_ 0
    (InferenceContext.create build.graph_def_version n.ndef_ op_reg_data.op_def
      (List.replicate n.inputs_.length ShapeHandle.null)) tr with ⟨x, tr2⟩
  rw [hb] at hmid
  simp only at hmid
  subst hmid
  have htr2 : global_lookups (tr ++ mid) = global_lookups tr := by
    rw [global_lookups_append, hg, List.append_nil]
  cases x with
  | error code msg => simpa [Exec.trace] using htr2
  | value c1 =>
    simp only
    rcases hrun : c1.Run op_reg_data.shape_inference_fn with ⟨st, c2⟩
    cases st with
    | error code msg => simpa [Exec.trace] using htr2
    | OK =>
      simp only
      split
      · simpa [Exec.trace] using htr2
      · obtain ⟨mid2, hmid2, hg2⟩ := Prepare.set_outputs_trace c2 n.retvals_
          (List.range c2.num_outputs) (tr ++ mid)
        rw [hmid2, global_lookups_append, hg2, List.append_nil, htr2]

/-- A successful shape inference: every input handle reported a shape, the
inference function ran OK on the context holding these shapes, the context has
no more outputs than there are `retvals` (as many when `DCHECK`s are compiled
in), and the `SetInferenceShape` calls pair `retvals` with the outputs. -/
theorem Prepare.infer_returned_ok (build : Build) (handles : Handles)
    (n : RemoteExecuteNode) (op_reg_data : OpRegistrationData) (tr tr1 : Trace)
    (hret : Prepare.infer build handles n op_reg_data tr = Exec.returned Status.OK tr1) :
    ∃ shapes ctx mid,
      List.Forall₂ (fun h shape => handles.InferenceShape h = StatusOr.value shape)
        n.inputs_ shapes
      ∧ (InferenceContext.create build.graph_def_version n.ndef_ op_reg_data.op_def
          shapes).Run op_reg_data.shape_inference_fn = (Status.OK, ctx)
      ∧ ctx.num_outputs ≤ n.retvals_.length
      ∧ (build.dcheck = true → ctx.num_outputs = n.retvals_.length)
      ∧ tr1 = tr ++ mid
      ∧ inference_shapes mid = List.zip n.retvals_ ctx.outputs := by
  unfold Prepare.infer at hret
  dsimp only at hret
  obtain ⟨mid, hmid, _, hinf⟩ := Prepare.bind_inputs_trace handles n.inputs_ 0
    (InferenceContext.create build.graph_def_version n.ndef_ op_reg_data.op_def
      (List.replicate n.inputs_.length ShapeHandle.null)) tr
  rcases hb : Prepare.bind_inputs handles n.inputs_ 0
    (InferenceContext.create build.graph_def_version n.ndef_ op_reg_data.op_def
      (List.replicate n.inputs_.length ShapeHandle.null)) tr with ⟨x, tr2⟩
  rw [hb] at hmid hret
  simp only at hmid
  subst hmid
  cases x with
  | error code msg => simp at hret
  | value c1 =>
    obtain ⟨shapes, hall, hc1⟩ := Prepare.bind_inputs_value handles n.inputs_ 0
      (InferenceContext.create build.graph_def_version n.ndef_ op_reg_data.op_def
        (List.replicate n.inputs_.length ShapeHandle.null)) c1 tr []
      (List.replicate n.inputs_.length ShapeHandle.null)
      (by simp [InferenceContext.create]) rfl (by simp) (by rw [hb])
    have hc1b : c1 = InferenceContext.create build.graph_def_version n.ndef_
        op_reg_data.op_def shapes := by
      rw [hc1]; simp [InferenceContext.create]
    simp only at hret
    rcases hrun : c1.Run op_reg_data.shape_inference_fn with ⟨st, c2⟩
    rw [hrun] at hret
    cases st with
    | error code msg => simp at hret
    | OK =>
      simp only at hret
      split at hret
      · simp at hret
      · rename_i hcheck
        rcases Nat.lt_or_ge n.retvals_.length c2.num_outputs with hgt | hle
        · obtain ⟨tr3, h3⟩ := Prepare.set_outputs_out_of_range c2 n.retvals_
            (List.range c2.num_outputs) (tr ++ mid)
            ⟨n.retvals_.length, List.mem_range.mpr hgt, Nat.le_refl _⟩
          rw [h3] at hret
          simp at hret
        · rw [Prepare.set_outputs_returned c2 n.retvals_ (List.range c2.num_outputs)
            (tr ++ mid) (fun i hi => by have := List.mem_range.mp hi; omega)] at hret
          refine ⟨shapes, c2, mid ++ (List.range c2.num_outputs).map
            (fun i => Event.SetInferenceShape (n.retvals_.getD i 0) (c2.output i)),
            hall, by rw [← hc1b]; exact hrun, hle, ?_, ?_, ?_⟩
          · intro hd
            simp [hd] at hcheck
            exact hcheck
          · have h2 := (Exec.returned.inj hret).2
            rw [← h2, List.append_assoc]
          · rw [inference_shapes_append, hinf, List.nil_append]
            exact inference_shapes_set_outputs c2 n.retvals_ hle

/-- With `DCHECK`s compiled in, shape inference whose context ends with a
number of outputs other than `retvals_.size()` stops at the `DCHECK_EQ`,
before any `SetInferenceShape` call. -/
theorem Prepare.infer_check_failed (build : Build) (handles : Handles)
    (n : RemoteExecuteNode) (op_reg_data : OpRegistrationData) (tr : Trace)
    (shapes : List ShapeHandle) (ctx : InferenceContext)
    (hall : List.Forall₂ (fun h shape => handles.InferenceShape h = StatusOr.value shape)
      n.inputs_ shapes)
    (hrun : (InferenceContext.create build.graph_def_version n.ndef_ op_reg_data.op_def
      shapes).Run op_reg_data.shape_inference_fn = (Status.OK, ctx))
    (hmis : ctx.num_outputs ≠ n.retvals_.length) (hd : build.dcheck = true) :
    ∃ mid, Prepare.infer build handles n op_reg_data tr = Exec.check_failed (tr ++ mid)
      ∧ inference_shapes mid = [] := by
  unfold Prepare.infer
  dsimp only
  obtain ⟨mid, hmid, _, hinf⟩ := Prepare.bind_inputs_trace handles n.inputs_ 0
    (InferenceContext.create build.graph_def_version n.ndef_ op_reg_data.op_def
      (List.replicate n.inputs_.length ShapeHandle.null)) tr
  have hval := Prepare.bind_inputs_ok handles n.inputs_ shapes hall 0
    (InferenceContext.create build.graph_def_version n.ndef_ op_reg_data.op_def
      (List.replicate n.inputs_.length ShapeHandle.null)) tr []
    (List.replicate n.inputs_.length ShapeHandle.null)
    (by simp [InferenceContext.create]) rfl (by simp)
  have hc1 : ({ InferenceContext.create build.graph_def_version n.ndef_ op_reg_data.op_def
        (List.replicate n.inputs_.length ShapeHandle.null) with inputs := [] ++ shapes }
        : InferenceContext)
      = InferenceContext.create build.graph_def_version n.ndef_ op_reg_data.op_def shapes := by
    simp [InferenceContext.create]
  rw [hc1] at hval
  rcases hb : Prepare.bind_inputs handles n.inputs_ 0
    (InferenceContext.create build.graph_def_version n.ndef_ op_reg_data.op_def
      (List.replicate n.inputs_.length ShapeHandle.null)) tr with ⟨x, tr2⟩
  rw [hb] at hmid hval
  simp only at hmid hval
  subst hmid
  subst hval
  refine ⟨mid, ?_, hinf⟩
  simp only [hrun]
  simp [hd, hmis]

/-- When every input handle reports a shape, the input loop has queried each
input handle once, in order, and made no other call. -/
theorem Prepare.bind_inputs_ok_trace (handles : Handles) (hs : List TensorHandle)
    (shapes : List ShapeHandle)
    (hall : List.Forall₂ (fun h shape => handles.InferenceShape h = StatusOr.value shape)
      hs shapes)
    (i : Nat) (c : InferenceContext) (tr : Trace) :
    (Prepare.bind_inputs handles hs i c tr).2 = tr ++ hs.map Event.InferenceShape := by
  induction hs generalizing shapes i c tr with
  | nil => simp [Prepare.bind_inputs]
  | cons h hs ih =>
    cases hall with
    | cons hq hall =>
      rename_i shape shapes
      simp only [Prepare.bind_inputs, hq]
      rw [ih shapes hall (i + 1) (c.SetInput i shape) (tr ++ [Event.InferenceShape h])]
      simp

/-- The calls of a full output loop, when the context has as many outputs as
there are `retvals`: `SetInferenceShape` on `retvals[i]` with output `i`. -/
theorem Prepare.set_outputs_calls (c : InferenceContext) (retvals : List TensorHandle)
    (heq : c.num_outputs = retvals.length) :
    (List.range c.num_outputs).map
        (fun i => Event.SetInferenceShape (retvals.getD i 0) (c.output i))
      = List.zipWith Event.SetInferenceShape retvals c.outputs := by
  apply List.ext_getElem?
  intro k
  rw [List.getElem?_zipWith, List.getElem?_map]
  unfold InferenceContext.num_outputs at heq ⊢
  rcases Nat.lt_or_ge k c.outputs.length with hlt | hge
  · have hk : k < retvals.length := by omega
    simp [List.getElem?_range hlt, List.getElem?_eq_getElem hlt, List.getElem?_eq_getElem hk,
      InferenceContext.output, List.getD]
  · have h1 : (List.range c.outputs.length)[k]? = none :=
      List.getElem?_eq_none (by simpa using hge)
    have h2 : c.outputs[k]? = none := List.getElem?_eq_none hge
    rw [h1, h2]
    cases retvals[k]? <;> rfl

/-- The input loop of shape inference, when every input handle reports a
shape: the context it leaves is the one created on these shapes, and the calls
made are the queries of the inputs. -/
theorem Prepare.bind_inputs_create (build : Build) (handles : Handles)
    (n : RemoteExecuteNode) (op_reg_data : OpRegistrationData) (tr : Trace)
    (shapes : List ShapeHandle)
    (hall : List.Forall₂ (fun h shape => handles.InferenceShape h = StatusOr.value shape)
      n.inputs_ shapes) :
    Prepare.bind_inputs handles n.inputs_ 0
        (InferenceContext.create build.graph_def_version n.ndef_ op_reg_data.op_def
          (List.replicate n.inputs_.length ShapeHandle.null)) tr
      = (StatusOr.value (InferenceContext.create build.graph_def_version n.ndef_
          op_reg_data.op_def shapes), tr ++ n.inputs_.map Event.InferenceShape) := by
  have hval := Prepare.bind_inputs_ok handles n.inputs_ shapes hall 0
    (InferenceContext.create build.graph_def_version n.ndef_ op_reg_data.op_def
      (List.replicate n.inputs_.length ShapeHandle.null)) tr []
    (List.replicate n.inputs_.length ShapeHandle.null)
    (by simp [InferenceContext.create]) rfl (by simp)
  have hc1 : ({ InferenceContext.create build.graph_def_version n.ndef_ op_reg_data.op_def
        (List.replicate n.inputs_.length ShapeHandle.null) with inputs := [] ++ shapes }
        : InferenceContext)
      = InferenceContext.create build.graph_def_version n.ndef_ op_reg_data.op_def shapes := by
    simp [InferenceContext.create]
  rw [hc1] at hval
  have htr := Prepare.bind_inputs_ok_trace handles n.inputs_ shapes hall 0
    (InferenceContext.create build.graph_def_version n.ndef_ op_reg_data.op_def
      (List.replicate n.inputs_.length ShapeHandle.null)) tr
  exact Prod.ext hval htr

/-- Shape inference on given registration data, when every input handle
reports a shape, the registered inference function succeeds on the context
created from the registered schema and these shapes, and that context has as
many outputs as there are `retvals`: OK is returned after the queries of the
inputs and one `SetInferenceShape` per output, with the outputs computed by
that function. -/
theorem Prepare.infer_ok (build : Build) (handles : Handles) (n : RemoteExecuteNode)
    (op_reg_data : OpRegistrationData) (tr : Trace) (shapes : List ShapeHandle)
    (ctx : InferenceContext)
    (hall : List.Forall₂ (fun h shape => handles.InferenceShape h = StatusOr.value shape)
      n.inputs_ shapes)
    (hrun : (InferenceContext.create build.graph_def_version n.ndef_ op_reg_data.op_def
      shapes).Run op_reg_data.shape_inference_fn = (Status.OK, ctx))
    (heq : ctx.num_outputs = n.retvals_.length) :
    Prepare.infer build handles n op_reg_data tr
      = Exec.returned Status.OK (tr ++ n.inputs_.map Event.InferenceShape
          ++ List.zipWith Event.SetInferenceShape n.retvals_ ctx.outputs) := by
  unfold Prepare.infer
  dsimp only
  rw [Prepare.bind_inputs_create build handles n op_reg_data tr shapes hall]
  simp only [hrun]
  rw [Prepare.set_outputs_returned ctx n.retvals_ (List.range ctx.num_outputs)
    (tr ++ n.inputs_.map Event.InferenceShape)
    (fun i hi => by have := List.mem_range.mp hi; omega),
    Prepare.set_outputs_calls ctx n.retvals_ heq]
  simp [heq]

/-- Shape inference on given registration data, when every input handle
reports a shape and the registered inference function fails on the context
created from the registered schema and these shapes: that error is returned
after the queries of the inputs. -/
theorem Prepare.infer_run_error (build : Build) (handles : Handles) (n : RemoteExecuteNode)
    (op_reg_data : OpRegistrationData) (tr : Trace) (shapes : List ShapeHandle)
    (ctx : InferenceContext) (code : Code) (msg : String)
    (hall : List.Forall₂ (fun h shape => handles.InferenceShape h = StatusOr.value shape)
      n.inputs_ shapes)
    (hrun : (InferenceContext.create build.graph_def_version n.ndef_ op_reg_data.op_def
      shapes).Run op_reg_data.shape_inference_fn = (Status.error code msg, ctx)) :
    Prepare.infer build handles n op_reg_data tr
      = Exec.returned (Status.error code msg) (tr ++ n.inputs_.map Event.InferenceShape) := by
  unfold Prepare.infer
  dsimp only
  rw [Prepare.bind_inputs_create build handles n op_reg_data tr shapes hall]
  simp only [hrun]

/-- The op lookup sets no inference shape. -/
theorem Prepare.lookup_inference_shapes (global : OpRegistry) (n : RemoteExecuteNode) :
    inference_shapes (Prepare.lookup global n).2 = [] := by
  unfold Prepare.lookup
  split <;> rfl

/-! ## Lemmas on the completion callback -/

/-- With an error status the loop over `retvals` poisons and releases each
handle in turn, and returns. -/
theorem Callback.finalize_error (handles : Handles) (code : Code) (msg : String)
    (response : EnqueueResponse) (device : Device) (hs : List TensorHandle) (i : Nat)
    (tr : Trace) :
    ∃ mid, Callback.finalize handles (Status.error code msg) response device hs i tr
        = Exec.returned () (tr ++ mid)
      ∧ poisons mid = hs.map (fun h => (h, Status.error code msg))
      ∧ remote_shapes mid = [] ∧ dones mid = [] ∧ refs mid = [] ∧ unrefs mid = hs := by
  induction hs generalizing i tr with
  | nil => exact ⟨[], by simp [Callback.finalize], rfl, rfl, rfl, rfl, rfl⟩
  | cons h hs ih =>
    obtain ⟨mid, hrun, hp, hr, hd, hrf, hu⟩ :=
      ih (i + 1) (tr ++ [Event.Poison h (Status.error code msg), Event.Unref h])
    refine ⟨[Event.Poison h (Status.error code msg), Event.Unref h] ++ mid, ?_, ?_, ?_, ?_, ?_, ?_⟩
    · simp [Callback.finalize, Status.ok, hrun]
    · rw [poisons_append, hp]; rfl
    · rw [remote_shapes_append, hr]; rfl
    · rw [dones_append, hd]; rfl
    · rw [refs_append, hrf]; rfl
    · rw [unrefs_append, hu]; rfl

/-- With an OK status and a first queue response holding a shape for every
index still to do, the loop over `retvals` calls `SetRemoteShape` on each
handle with the shape at its index, releases it, and returns, whatever the
statuses of the `SetRemoteShape` calls. -/
theorem Callback.finalize_ok (handles : Handles) (response : EnqueueResponse)
    (qr : QueueResponse) (device : Device) (hq : response.queue_response[0]? = some qr)
    (hs : List TensorHandle) (i : Nat) (tr : Trace) (hlen : i + hs.length ≤ qr.shape.length) :
    ∃ mid, Callback.finalize handles Status.OK response device hs i tr
        = Exec.returned () (tr ++ mid)
      ∧ remote_shapes mid = List.zipWith (fun h shape => (h, shape, device)) hs (qr.shape.drop i)
      ∧ poisons mid = [] ∧ dones mid = [] ∧ refs mid = [] ∧ unrefs mid = hs := by
  induction hs generalizing i tr with
  | nil => exact ⟨[], by simp [Callback.finalize], by simp [remote_shapes], rfl, rfl, rfl, rfl⟩
  | cons h hs ih =>
    have hi : i < qr.shape.length := by simp at hlen; omega
    have hget : qr.shape[i]? = some qr.shape[i] := List.getElem?_eq_getElem hi
    have hlen2 : (i + 1) + hs.length ≤ qr.shape.length := by simp at hlen; omega
    have hok : Status.OK.ok = true := rfl
    cases hs_ok : (handles.SetRemoteShape tr h qr.shape[i] device).ok with
    | true =>
      obtain ⟨mid, hrun, hr, hp, hd, hrf, hu⟩ :=
        ih (i + 1) (tr ++ [Event.SetRemoteShape h qr.shape[i] device] ++ [Event.Unref h]) hlen2
      refine ⟨[Event.SetRemoteShape h qr.shape[i] device, Event.Unref h] ++ mid,
        ?_, ?_, ?_, ?_, ?_, ?_⟩
      · simp [Callback.finalize, hok, hq, hget, hs_ok] at hrun ⊢
        exact hrun
      · rw [remote_shapes_append, hr, List.drop_eq_getElem_cons hi]; rfl
      · rw [poisons_append, hp]; rfl
      · rw [dones_append, hd]; rfl
      · rw [refs_append, hrf]; rfl
      · rw [unrefs_append, hu]; rfl
    | false =>
      obtain ⟨mid, hrun, hr, hp, hd, hrf, hu⟩ :=
        ih (i + 1) (tr ++ [Event.SetRemoteShape h qr.shape[i] device]
          ++ [Event.LogError h Status.OK] ++ [Event.Unref h]) hlen2
      refine ⟨[Event.SetRemoteShape h qr.shape[i] device, Event.LogError h Status.OK,
        Event.Unref h] ++ mid, ?_, ?_, ?_, ?_, ?_, ?_⟩
      · simp [Callback.finalize, hok, hq, hget, hs_ok] at hrun ⊢
        exact hrun
      · rw [remote_shapes_append, hr, List.drop_eq_getElem_cons hi]; rfl
      · rw [poisons_append, hp]; rfl
      · rw [dones_append, hd]; rfl
      · rw [refs_append, hrf]; rfl
      · rw [unrefs_append, hu]; rfl

/-- With an OK status and a first queue response holding fewer shapes than
there are indices to do, the loop over `retvals` sets the remote shape of the
handles that have a shape and then reads the shape list out of range. -/
theorem Callback.finalize_short (handles : Handles) (response : EnqueueResponse)
    (qr : QueueResponse) (device : Device) (hq : response.queue_response[0]? = some qr)
    (hs : List TensorHandle) (i : Nat) (tr : Trace) (hi : i ≤ qr.shape.length)
    (hlen : qr.shape.length < i + hs.length) :
    ∃ mid, Callback.finalize handles Status.OK response device hs i tr
        = Exec.out_of_range (tr ++ mid)
      ∧ remote_shapes mid = List.zipWith (fun h shape => (h, shape, device)) hs (qr.shape.drop i)
      ∧ poisons mid = [] ∧ dones mid = []
      ∧ unrefs mid = hs.take (qr.shape.length - i) := by
  induction hs generalizing i tr with
  | nil => simp at hlen; omega
  | cons h hs ih =>
    have hok : Status.OK.ok = true := rfl
    rcases Nat.lt_or_ge i qr.shape.length with hlt | hge
    · have hget : qr.shape[i]? = some qr.shape[i] := List.getElem?_eq_getElem hlt
      have hlen2 : qr.shape.length < (i + 1) + hs.length := by simp at hlen; omega
      have htake : qr.shape.length - i = (qr.shape.length - (i + 1)) + 1 := by omega
      cases hs_ok : (handles.SetRemoteShape tr h qr.shape[i] device).ok with
      | true =>
        obtain ⟨mid, hrun, hr, hp, hd, hu⟩ :=
          ih (i + 1) (tr ++ [Event.SetRemoteShape h qr.shape[i] device] ++ [Event.Unref h])
            hlt hlen2
        refine ⟨[Event.SetRemoteShape h qr.shape[i] device, Event.Unref h] ++ mid,
          ?_, ?_, ?_, ?_, ?_⟩
        · simp [Callback.finalize, hok, hq, hget, hs_ok] at hrun ⊢
          exact hrun
        · rw [remote_shapes_append, hr, List.drop_eq_getElem_cons hlt]; rfl
        · rw [poisons_append, hp]; rfl
        · rw [dones_append, hd]; rfl
        · rw [unrefs_append, hu, htake]; rfl
      | false =>
        obtain ⟨mid, hrun, hr, hp, hd, hu⟩ :=
          ih (i + 1) (tr ++ [Event.SetRemoteShape h qr.shape[i] device]
            ++ [Event.LogError h Status.OK] ++ [Event.Unref h]) hlt hlen2
        refine ⟨[Event.SetRemoteShape h qr.shape[i] device, Event.LogError h Status.OK,
          Event.Unref h] ++ mid, ?_, ?_, ?_, ?_, ?_⟩
        · simp [Callback.finalize, hok, hq, hget, hs_ok] at hrun ⊢
          exact hrun
        · rw [remote_shapes_append, hr, List.drop_eq_getElem_cons hlt]; rfl
        · rw [poisons_append, hp]; rfl
        · rw [dones_append, hd]; rfl
        · rw [unrefs_append, hu, htake]; rfl
    · have hget : qr.shape[i]? = none := List.getElem?_eq_none hge
      have hdrop : qr.shape.drop i = [] := List.drop_of_length_le hge
      have hz : qr.shape.length - i = 0 := by omega
      refine ⟨[], ?_, ?_, rfl, rfl, ?_⟩
      · simp [Callback.finalize, hok, hq, hget]
      · rw [hdrop]; simp [remote_shapes]
      · rw [hz]; rfl

/-- Fired with an error status, the callback releases the inputs, poisons and
releases every output, calls `done` with that status and deletes the response. -/
theorem Callback.fire_error (handles : Handles) (vlog_is_on : Bool) (cb : Callback)
    (response : EnqueueResponse) (code : Code) (msg : String) (tr : Trace) :
    ∃ pre, Callback.fire handles vlog_is_on cb response (Status.error code msg) tr
        = Exec.returned ()
            (tr ++ pre ++ [Event.done (Status.error code msg), Event.delete_response])
      ∧ poisons pre = cb.retvals.map (fun h => (h, Status.error code msg))
      ∧ remote_shapes pre = [] ∧ dones pre = [] ∧ refs pre = []
      ∧ unrefs pre = cb.inputs ++ cb.retvals := by
  obtain ⟨mid, hrun, hp, hr, hd, hrf, hu⟩ :=
    Callback.finalize_error handles code msg response cb.device cb.retvals 0
      (tr ++ cb.inputs.map Event.Unref
        ++ vlog vlog_is_on (LogLine.Failed cb.rpc_description (Status.error code msg)))
  refine ⟨cb.inputs.map Event.Unref
      ++ vlog vlog_is_on (LogLine.Failed cb.rpc_description (Status.error code msg)) ++ mid,
    ?_, ?_, ?_, ?_, ?_, ?_⟩
  · simp only [List.append_assoc] at hrun
    simp [Callback.fire, Status.ok, hrun]
  · simp [poisons_append, poisons_map_Unref, poisons_vlog, hp]
  · simp [remote_shapes_append, remote_shapes_map_Unref, remote_shapes_vlog, hr]
  · simp [dones_append, dones_map_Unref, dones_vlog, hd]
  · simp [refs_append, refs_map_Unref, refs_vlog, hrf]
  · simp [unrefs_append, unrefs_map_Unref, unrefs_vlog, hu]

/-- Fired with OK and a first queue response holding a shape for every
output, the callback releases the inputs, sets the remote shape of every
output and releases it, calls `done` with OK and deletes the response. -/
theorem Callback.fire_ok (handles : Handles) (vlog_is_on : Bool) (cb : Callback)
    (response : EnqueueResponse) (qr : QueueResponse) (tr : Trace)
    (hq : response.queue_response[0]? = some qr)
    (hlen : cb.retvals.length ≤ qr.shape.length) :
    ∃ pre, Callback.fire handles vlog_is_on cb response Status.OK tr
        = Exec.returned () (tr ++ pre ++ [Event.done Status.OK, Event.delete_response])
      ∧ remote_shapes pre
          = List.zipWith (fun h shape => (h, shape, cb.device)) cb.retvals qr.shape
      ∧ poisons pre = [] ∧ dones pre = [] ∧ refs pre = []
      ∧ unrefs pre = cb.inputs ++ cb.retvals := by
  obtain ⟨mid, hrun, hr, hp, hd, hrf, hu⟩ :=
    Callback.finalize_ok handles response qr cb.device hq cb.retvals 0
      (tr ++ cb.inputs.map Event.Unref
        ++ vlog vlog_is_on (LogLine.Completed cb.rpc_description)) (by omega)
  refine ⟨cb.inputs.map Event.Unref
      ++ vlog vlog_is_on (LogLine.Completed cb.rpc_description) ++ mid,
    ?_, ?_, ?_, ?_, ?_, ?_⟩
  · simp only [List.append_assoc] at hrun
    simp [Callback.fire, Status.ok, hrun]
  · simp [remote_shapes_append, remote_shapes_map_Unref, remote_shapes_vlog, hr]
  · simp [poisons_append, poisons_map_Unref, poisons_vlog, hp]
  · simp [dones_append, dones_map_Unref, dones_vlog, hd]
  · simp [refs_append, refs_map_Unref, refs_vlog, hrf]
  · simp [unrefs_append, unrefs_map_Unref, unrefs_vlog, hu]

/-- Fired with OK when there is no output, the callback releases the inputs,
calls `done` with OK and deletes the response, without reading the response. -/
theorem Callback.fire_ok_nil (handles : Handles) (vlog_is_on : Bool) (cb : Callback)
    (response : EnqueueResponse) (tr : Trace) (hnil : cb.retvals = []) :
    ∃ pre, Callback.fire handles vlog_is_on cb response Status.OK tr
        = Exec.returned () (tr ++ pre ++ [Event.done Status.OK, Event.delete_response])
      ∧ remote_shapes pre = [] ∧ poisons pre = [] ∧ dones pre = [] ∧ refs pre = []
      ∧ unrefs pre = cb.inputs ++ cb.retvals := by
  refine ⟨cb.inputs.map Event.Unref
      ++ vlog vlog_is_on (LogLine.Completed cb.rpc_description), ?_, ?_, ?_, ?_, ?_, ?_⟩
  · simp [Callback.fire, Status.ok, hnil, Callback.finalize]
  · simp [remote_shapes_append, remote_shapes_map_Unref, remote_shapes_vlog]
  · simp [poisons_append, poisons_map_Unref, poisons_vlog]
  · simp [dones_append, dones_map_Unref, dones_vlog]
  · simp [refs_append, refs_map_Unref, refs_vlog]
  · simp [unrefs_append, unrefs_map_Unref, unrefs_vlog, hnil]

/-- Fired with OK and a first queue response holding fewer shapes than there
are outputs, the callback stops at an out-of-range read of the shape list: it
has poisoned nothing, and has not called `done`. -/
theorem Callback.fire_short (handles : Handles) (vlog_is_on : Bool) (cb : Callback)
    (response : EnqueueResponse) (qr : QueueResponse) (tr : Trace)
    (hq : response.queue_response[0]? = some qr)
    (hlen : qr.shape.length < cb.retvals.length) :
    ∃ pre, Callback.fire handles vlog_is_on cb response Status.OK tr
        = Exec.out_of_range (tr ++ pre)
      ∧ remote_shapes pre
          = List.zipWith (fun h shape => (h, shape, cb.device)) cb.retvals qr.shape
      ∧ poisons pre = [] ∧ dones pre = []
      ∧ unrefs pre = cb.inputs ++ cb.retvals.take qr.shape.length := by
  obtain ⟨mid, hrun, hr, hp, hd, hu⟩ :=
    Callback.finalize_short handles response qr cb.device hq cb.retvals 0
      (tr ++ cb.inputs.map Event.Unref
        ++ vlog vlog_is_on (LogLine.Completed cb.rpc_description)) (by omega) (by omega)
  refine ⟨cb.inputs.map Event.Unref
      ++ vlog vlog_is_on (LogLine.Completed cb.rpc_description) ++ mid, ?_, ?_, ?_, ?_, ?_⟩
  · simp only [List.append_assoc] at hrun
    simp [Callback.fire, Status.ok, hrun]
  · simp [remote_shapes_append, remote_shapes_map_Unref, remote_shapes_vlog, hr]
  · simp [poisons_append, poisons_map_Unref, poisons_vlog, hp]
  · simp [dones_append, dones_map_Unref, dones_vlog, hd]
  · simp [unrefs_append, unrefs_map_Unref, unrefs_vlog, hu]

/-! ## Lemmas on RunAsync -/

theorem dones_map_Ref (hs : List TensorHandle) : dones (hs.map Event.Ref) = [] := by
  induction hs with
  | nil => rfl
  | cons h hs ih => simp [dones] at ih ⊢

/-- The callback handed to the client holds the node's inputs, outputs and
device. -/
theorem RunAsync_callback (vlog_is_on : Bool) (n : RemoteExecuteNode) (tr : Trace) :
    (RunAsync vlog_is_on n tr).2.inputs = n.inputs_
      ∧ (RunAsync vlog_is_on n tr).2.retvals = n.retvals_
      ∧ (RunAsync vlog_is_on n tr).2.device = n.device_ :=
  ⟨rfl, rfl, rfl⟩

/-- At entry `RunAsync` calls `Ref` once per entry of `inputs_` and of
`retvals_`, and neither `Unref` nor `done`. -/
theorem RunAsync_refs (vlog_is_on : Bool) (n : RemoteExecuteNode) :
    refs (RunAsync vlog_is_on n []).1 = n.inputs_ ++ n.retvals_
      ∧ unrefs (RunAsync vlog_is_on n []).1 = []
      ∧ dones (RunAsync vlog_is_on n []).1 = [] := by
  refine ⟨?_, ?_, ?_⟩
  · simp [RunAsync, refs_append, refs_vlog, refs_map_Ref]
    rfl
  · simp [RunAsync, unrefs_append, unrefs_vlog, unrefs_map_Ref]
    rfl
  · simp [RunAsync, dones_append, dones_vlog, dones_map_Ref]
    rfl

/-- The callback runs to its end when the status is an error, when there is
no output, or when the first queue response holds a shape for every output. -/
theorem Callback.fire_completes (handles : Handles) (vlog_is_on : Bool) (cb : Callback)
    (response : EnqueueResponse) (status : Status) (tr : Trace)
    (hresp : status.ok = true → cb.retvals = [] ∨
      ∃ qr, response.queue_response[0]? = some qr ∧ cb.retvals.length ≤ qr.shape.length) :
    ∃ pre, Callback.fire handles vlog_is_on cb response status tr
        = Exec.returned () (tr ++ pre ++ [Event.done status, Event.delete_response])
      ∧ dones pre = [] ∧ refs pre = [] ∧ unrefs pre = cb.inputs ++ cb.retvals := by
  cases status with
  | error code msg =>
    obtain ⟨pre, hrun, _, _, hd, hrf, hu⟩ :=
      Callback.fire_error handles vlog_is_on cb response code msg tr
    exact ⟨pre, hrun, hd, hrf, hu⟩
  | OK =>
    rcases hresp rfl with hnil | ⟨qr, hq, hlen⟩
    · obtain ⟨pre, hrun, _, _, hd, hrf, hu⟩ :=
        Callback.fire_ok_nil handles vlog_is_on cb response tr hnil
      exact ⟨pre, hrun, hd, hrf, hu⟩
    · obtain ⟨pre, hrun, _, _, hd, hrf, hu⟩ :=
        Callback.fire_ok handles vlog_is_on cb response qr tr hq hlen
      exact ⟨pre, hrun, hd, hrf, hu⟩

/-! ## Claims on Prepare -/

/-- C5, as stated, fails: without `DCHECK`s, a node with outputs 7 and 8 whose
op is registered with a single output gets OK from `Prepare` although only
handle 7 has had its inference shape set. -/
theorem C5_counterexample :
    Prepare { dcheck := false, graph_def_version := 0 } example_registry good_handles
        two_output_node
      = Exec.returned Status.OK [Event.Find "Split", Event.GlobalLookUp "Split",
          Event.InferenceShape 1, Event.InferenceShape 2,
          Event.SetInferenceShape 7 (ShapeHandle.dims [2, 3])]
    ∧ inference_shapes (Prepare { dcheck := false, graph_def_version := 0 } example_registry
        good_handles two_output_node).trace = [(7, ShapeHandle.dims [2, 3])] := by
  constructor <;> rfl

/-- C5 (amended): for every node, if `Prepare` returns OK then either the node
has no output and `Prepare` made no call, or its op resolved, every input handle
reported an inference shape, and the op's shape-inference function ran OK on
the context holding these shapes bound in order; the `SetInferenceShape` calls
made pair `retvals` with the outputs of that context, in order; and, provided
the context's output count equals `retvals.length` (which always holds when
`DCHECK`s are compiled in), every `retvals[i]`, `i < retvals.length`, has had
its inference shape set exactly once, to the i-th output of that context. -/
theorem C5_prepare_sets_inference_shapes (build : Build) (global : OpRegistry)
    (handles : Handles) (n : RemoteExecuteNode) (tr : Trace)
    (hret : Prepare build global handles n = Exec.returned Status.OK tr) :
    (n.retvals_ = [] ∧ tr = []) ∨
    ∃ op_reg_data shapes ctx,
      (Prepare.lookup global n).1 = StatusOr.value op_reg_data
      ∧ List.Forall₂ (fun h shape => handles.InferenceShape h = StatusOr.value shape)
          n.inputs_ shapes
      ∧ (InferenceContext.create build.graph_def_version n.ndef_ op_reg_data.op_def
          shapes).Run op_reg_data.shape_inference_fn = (Status.OK, ctx)
      ∧ inference_shapes tr = List.zip n.retvals_ ctx.outputs
      ∧ (build.dcheck = true → ctx.num_outputs = n.retvals_.length)
      ∧ (ctx.num_outputs = n.retvals_.length →
          (inference_shapes tr).length = n.retvals_.length
          ∧ ∀ (i : Nat) (h : TensorHandle), n.retvals_[i]? = some h →
              (inference_shapes tr)[i]? = some (h, ctx.output i)) := by
  unfold Prepare at hret
  split at hret
  · rename_i hempty
    left
    exact ⟨List.isEmpty_iff.mp hempty, ((Exec.returned.inj hret).2).symm⟩
  · right
    have hlk := Prepare.lookup_inference_shapes global n
    rcases hl : Prepare.lookup global n with ⟨x, tr1⟩
    rw [hl] at hret hlk
    cases x with
    | error code msg => simp at hret
    | value op_reg_data =>
      simp only at hret hlk
      obtain ⟨shapes, ctx, mid, hall, hrun, hle, hd, htr, hinf⟩ :=
        Prepare.infer_returned_ok build handles n op_reg_data tr1 tr hret
      have hzip : inference_shapes tr = List.zip n.retvals_ ctx.outputs := by
        rw [htr, inference_shapes_append, hlk, hinf, List.nil_append]
      refine ⟨op_reg_data, shapes, ctx, rfl, hall, hrun, hzip, hd, ?_⟩
      intro heq
      unfold InferenceContext.num_outputs at heq
      refine ⟨by rw [hzip, List.length_zip, heq, Nat.min_self], ?_⟩
      intro i h hi
      have hlt : i < ctx.outputs.length := by
        rw [heq]; exact (List.getElem?_eq_some.mp hi).1
      rw [hzip, List.getElem?_zip_eq_some]
      exact ⟨hi, by simp [InferenceContext.output, List.getD, List.getElem?_eq_getElem hlt]⟩

/-- C5 (amended) at a node running an op whose inference function is the
identity, on a single input of inference shape `[2,3]`: the output handle 7
gets the inference shape `[2,3]`. -/
theorem C5_prepare_sets_inference_shapes_witness :
    Prepare { dcheck := true, graph_def_version := 0 } example_registry good_handles
        identity_node
      = Exec.returned Status.OK [Event.Find "Identity", Event.GlobalLookUp "Identity",
          Event.InferenceShape 1, Event.SetInferenceShape 7 (ShapeHandle.dims [2, 3])]
    ∧ ((identity_node.retvals_ = [] ∧ [Event.Find "Identity", Event.GlobalLookUp "Identity",
          Event.InferenceShape 1, Event.SetInferenceShape 7 (ShapeHandle.dims [2, 3])] = []) ∨
      ∃ op_reg_data shapes ctx,
        (Prepare.lookup example_registry identity_node).1 = StatusOr.value op_reg_data
        ∧ List.Forall₂ (fun h shape => good_handles.InferenceShape h = StatusOr.value shape)
            identity_node.inputs_ shapes
        ∧ (InferenceContext.create 0 identity_node.ndef_ op_reg_data.op_def
            shapes).Run op_reg_data.shape_inference_fn = (Status.OK, ctx)
        ∧ inference_shapes [Event.Find "Identity", Event.GlobalLookUp "Identity",
            Event.InferenceShape 1, Event.SetInferenceShape 7 (ShapeHandle.dims [2, 3])]
            = List.zip identity_node.retvals_ ctx.outputs
        ∧ (true = true → ctx.num_outputs = identity_node.retvals_.length)
        ∧ (ctx.num_outputs = identity_node.retvals_.length →
            (inference_shapes [Event.Find "Identity", Event.GlobalLookUp "Identity",
              Event.InferenceShape 1,
              Event.SetInferenceShape 7 (ShapeHandle.dims [2, 3])]).length
              = identity_node.retvals_.length
            ∧ ∀ (i : Nat) (h : TensorHandle), identity_node.retvals_[i]? = some h →
                (inference_shapes [Event.Find "Identity", Event.GlobalLookUp "Identity",
                  Event.InferenceShape 1,
                  Event.SetInferenceShape 7 (ShapeHandle.dims [2, 3])])[i]?
                  = some (h, ctx.output i))) :=
  ⟨rfl, C5_prepare_sets_inference_shapes { dcheck := true, graph_def_version := 0 }
    example_registry good_handles identity_node _ rfl⟩

/-- C6, as stated, fails: a node with outputs 7 and 8 whose op resolves, with
an inference function that succeeds with a single output, gets no
`InternalError` from `Prepare`: with `DCHECK`s compiled in the `DCHECK_EQ`
fails and no status is returned; without them `Prepare` returns OK. -/
theorem C6_counterexample :
    Prepare { dcheck := true, graph_def_version := 0 } example_registry good_handles
        two_output_node
      = Exec.check_failed [Event.Find "Split", Event.GlobalLookUp "Split",
          Event.InferenceShape 1, Event.InferenceShape 2]
    ∧ Prepare { dcheck := false, graph_def_version := 0 } example_registry good_handles
        two_output_node
      = Exec.returned Status.OK [Event.Find "Split", Event.GlobalLookUp "Split",
          Event.InferenceShape 1, Event.InferenceShape 2,
          Event.SetInferenceShape 7 (ShapeHandle.dims [2, 3])] := by
  constructor <;> rfl

/-- C6 (amended): for every node with non-empty `retvals` whose op resolves,
whose inputs all report an inference shape and whose shape-inference function
succeeds on them, if the inference context's output count differs from
`retvals.length` and `DCHECK`s are compiled in, then `Prepare` does not return
OK, nor any other status: it stops at the failed `DCHECK_EQ`, after the lookup
and the queries of the inputs and before setting any inference shape. -/
theorem C6_arity_mismatch_fails_check (build : Build) (global : OpRegistry)
    (handles : Handles) (n : RemoteExecuteNode) (op_reg_data : OpRegistrationData)
    (shapes : List ShapeHandle) (ctx : InferenceContext)
    (hne : n.retvals_ ≠ [])
    (hlookup : (Prepare.lookup global n).1 = StatusOr.value op_reg_data)
    (hall : List.Forall₂ (fun h shape => handles.InferenceShape h = StatusOr.value shape)
      n.inputs_ shapes)
    (hrun : (InferenceContext.create build.graph_def_version n.ndef_ op_reg_data.op_def
      shapes).Run op_reg_data.shape_inference_fn = (Status.OK, ctx))
    (hmis : ctx.num_outputs ≠ n.retvals_.length) (hd : build.dcheck = true) :
    ∃ tr, Prepare build global handles n = Exec.check_failed tr
      ∧ inference_shapes tr = []
      ∧ ∀ st tr1, Prepare build global handles n ≠ Exec.returned st tr1 := by
  have hlk := Prepare.lookup_inference_shapes global n
  have hempty : n.retvals_.isEmpty = false := by
    cases hr : n.retvals_ with
    | nil => exact absurd hr hne
    | cons a l => rfl
  unfold Prepare
  rcases hl : Prepare.lookup global n with ⟨x, tr1⟩
  rw [hl] at hlookup hlk
  simp only at hlookup hlk
  subst hlookup
  obtain ⟨mid, hrun2, hinf⟩ :=
    Prepare.infer_check_failed build handles n op_reg_data tr1 shapes ctx hall hrun hmis hd
  refine ⟨tr1 ++ mid, ?_, ?_, ?_⟩
  · simp [hempty, hrun2]
  · rw [inference_shapes_append, hlk, hinf]; rfl
  · intro st tr2
    simp [hempty, hrun2]

/-- C6 (amended) at a node with outputs 7 and 8 whose op `Split` is registered
with a single output, `DCHECK`s being compiled in. -/
theorem C6_arity_mismatch_fails_check_witness :
    (two_output_node.retvals_ ≠ [] ∧ (1 : Nat) ≠ two_output_node.retvals_.length) ∧
    ∃ tr, Prepare { dcheck := true, graph_def_version := 0 } example_registry good_handles
        two_output_node = Exec.check_failed tr
      ∧ inference_shapes tr = []
      ∧ ∀ st tr1, Prepare { dcheck := true, graph_def_version := 0 } example_registry
          good_handles two_output_node ≠ Exec.returned st tr1 :=
  ⟨⟨by decide, by decide⟩,
   C6_arity_mismatch_fails_check { dcheck := true, graph_def_version := 0 } example_registry
    good_handles two_output_node
    { op_def := { name := "Split", output_count := fun _ => 1 }
      shape_inference_fn := first_input_fn }
    [ShapeHandle.dims [2, 3], ShapeHandle.dims [2, 3]]
    { graph_def_version := 0, node_def := two_output_node.ndef_,
      op_def := { name := "Split", output_count := fun _ => 1 },
      inputs := [ShapeHandle.dims [2, 3], ShapeHandle.dims [2, 3]],
      outputs := [ShapeHandle.dims [2, 3]] }
    (by decide) rfl
    (List.Forall₂.cons rfl (List.Forall₂.cons rfl List.Forall₂.nil))
    rfl (by decide) rfl⟩

/-- C7: for every node with non-empty `retvals`, `Prepare` looks the op name up
in the global registry exactly when the library's `Find` returns absent.  When
`Find` finds the name (whether or not the global registry knows it too), the
outcome of `Prepare` does not depend on the global registry and shape inference
uses the library's definition: an error of the library's `LookUp` is returned
as it is; otherwise, with every input reporting an inference shape, the
library's shape-inference function is run on the context created from the
library's op schema and these shapes; if it fails `Prepare` returns its error,
and if it succeeds with as many outputs as there are `retvals`, `Prepare`
returns OK having set on each `retvals[i]` the i-th output that function
computed. -/
theorem C7_library_takes_precedence (build : Build) (global : OpRegistry)
    (handles : Handles) (n : RemoteExecuteNode) (hne : n.retvals_ ≠ []) :
    global_lookups (Prepare build global handles n).trace
        = (if (n.lib_def_.Find n.ndef_.op).isNone then [n.ndef_.op] else [])
      ∧ ((n.lib_def_.Find n.ndef_.op).isSome →
          Prepare build global handles n
              = (match n.lib_def_.LookUp n.ndef_.op with
                | StatusOr.error code msg =>
                  Exec.returned (Status.error code msg)
                    [Event.Find n.ndef_.op, Event.LibLookUp n.ndef_.op]
                | StatusOr.value op_reg_data =>
                  Prepare.infer build handles n op_reg_data
                    [Event.Find n.ndef_.op, Event.LibLookUp n.ndef_.op])
            ∧ (∀ other : OpRegistry,
                Prepare build other handles n = Prepare build global handles n)
            ∧ (∀ (code : Code) (msg : String),
                n.lib_def_.LookUp n.ndef_.op = StatusOr.error code msg →
                Prepare build global handles n
                  = Exec.returned (Status.error code msg)
                      [Event.Find n.ndef_.op, Event.LibLookUp n.ndef_.op])
            ∧ (∀ (op_reg_data : OpRegistrationData) (shapes : List ShapeHandle),
                n.lib_def_.LookUp n.ndef_.op = StatusOr.value op_reg_data →
                List.Forall₂ (fun h shape => handles.InferenceShape h = StatusOr.value shape)
                  n.inputs_ shapes →
                (∀ ctx : InferenceContext,
                  (InferenceContext.create build.graph_def_version n.ndef_ op_reg_data.op_def
                    shapes).Run op_reg_data.shape_inference_fn = (Status.OK, ctx) →
                  ctx.num_outputs = n.retvals_.length →
                  Prepare build global handles n
                    = Exec.returned Status.OK
                        ([Event.Find n.ndef_.op, Event.LibLookUp n.ndef_.op]
                          ++ n.inputs_.map Event.InferenceShape
                          ++ List.zipWith Event.SetInferenceShape n.retvals_ ctx.outputs))
                ∧ (∀ (code : Code) (msg : String) (ctx : InferenceContext),
                  (InferenceContext.create build.graph_def_version n.ndef_ op_reg_data.op_def
                    shapes).Run op_reg_data.shape_inference_fn = (Status.error code msg, ctx) →
                  Prepare build global handles n
                    = Exec.returned (Status.error code msg)
                        ([Event.Find n.ndef_.op, Event.LibLookUp n.ndef_.op]
                          ++ n.inputs_.map Event.InferenceShape)))) := by
  have hempty : n.retvals_.isEmpty = false := by
    cases hr : n.retvals_ with
    | nil => exact absurd hr hne
    | cons a l => rfl
  cases hfind : n.lib_def_.Find n.ndef_.op with
  | none =>
    refine ⟨?_, by simp⟩
    simp only [Prepare, hempty, Prepare.lookup, hfind, Option.isNone_none, if_true]
    cases global.LookUp n.ndef_.op with
    | error code msg => rfl
    | value op_reg_data =>
      simp only [Bool.false_eq_true, if_false]
      rw [Prepare.infer_global_lookups]
      rfl
  | some fd =>
    have hp : ∀ g : OpRegistry, Prepare build g handles n
        = (match n.lib_def_.LookUp n.ndef_.op with
          | StatusOr.error code msg =>
            Exec.returned (Status.error code msg)
              [Event.Find n.ndef_.op, Event.LibLookUp n.ndef_.op]
          | StatusOr.value op_reg_data =>
            Prepare.infer build handles n op_reg_data
              [Event.Find n.ndef_.op, Event.LibLookUp n.ndef_.op]) := by
      intro g
      simp only [Prepare, hempty, Prepare.lookup, hfind, Option.isNone_some,
        Bool.false_eq_true, if_false]
      cases n.lib_def_.LookUp n.ndef_.op <;> rfl
    refine ⟨?_, fun _ => ⟨hp global, fun other => by rw [hp other, hp global], ?_, ?_⟩⟩
    · rw [hp global]
      cases n.lib_def_.LookUp n.ndef_.op with
      | error code msg => rfl
      | value op_reg_data =>
        simp only [Option.isNone_some, Bool.false_eq_true, if_false]
        rw [Prepare.infer_global_lookups]
        rfl
    · intro code msg hlib
      rw [hp global, hlib]
    · intro op_reg_data shapes hlib hall
      constructor
      · intro ctx hrun heq
        rw [hp global, hlib]
        exact Prepare.infer_ok build handles n op_reg_data
          [Event.Find n.ndef_.op, Event.LibLookUp n.ndef_.op] shapes ctx hall hrun heq
      · intro code msg ctx hrun
        rw [hp global, hlib]
        exact Prepare.infer_run_error build handles n op_reg_data
          [Event.Find n.ndef_.op, Event.LibLookUp n.ndef_.op] shapes ctx code msg hall hrun

/-- C7 at a node running `Identity` on an input of inference shape `[2,3]`, a
name that both the function library and the global registry know: the global
registry is not consulted and could be any other; the library's inference
function (one output of unknown shape) is run, so the output handle 7 gets the
unknown shape and not the `[2,3]` that the global definition, the identity,
would give. -/
theorem C7_library_takes_precedence_witness :
    shadowed_node.retvals_ ≠ []
    ∧ (shadowed_node.lib_def_.Find shadowed_node.ndef_.op).isSome
    ∧ (example_registry.LookUp shadowed_node.ndef_.op
        = StatusOr.value { op_def := { name := "Identity", output_count := fun _ => 1 }
                           shape_inference_fn := identity_fn })
    ∧ global_lookups (Prepare { dcheck := true, graph_def_version := 0 } example_registry
          good_handles shadowed_node).trace = []
    ∧ (∀ other : OpRegistry,
        Prepare { dcheck := true, graph_def_version := 0 } other good_handles shadowed_node
          = Prepare { dcheck := true, graph_def_version := 0 } example_registry good_handles
              shadowed_node)
    ∧ Prepare { dcheck := true, graph_def_version := 0 } example_registry good_handles
        shadowed_node
      = Exec.returned Status.OK [Event.Find "Identity", Event.LibLookUp "Identity",
          Event.InferenceShape 1, Event.SetInferenceShape 7 ShapeHandle.unknown_rank] :=
  ⟨by decide, rfl, rfl,
   (C7_library_takes_precedence { dcheck := true, graph_def_version := 0 } example_registry
      good_handles shadowed_node (by decide)).1,
   ((C7_library_takes_precedence { dcheck := true, graph_def_version := 0 } example_registry
      good_handles shadowed_node (by decide)).2 rfl).2.1,
   (((C7_library_takes_precedence { dcheck := true, graph_def_version := 0 } example_registry
      good_handles shadowed_node (by decide)).2 rfl).2.2.2
      { op_def := { name := "Identity", output_count := fun _ => 1 }
        shape_inference_fn := unknown_shape_fn }
      [ShapeHandle.dims [2, 3]] rfl (List.Forall₂.cons rfl List.Forall₂.nil)).1
      { graph_def_version := 0, node_def := shadowed_node.ndef_,
        op_def := { name := "Identity", output_count := fun _ => 1 },
        inputs := [ShapeHandle.dims [2, 3]],
        outputs := [ShapeHandle.unknown_rank] }
      rfl rfl⟩

/-- C8: for every node with non-empty `retvals` whose op name the library's
`Find` does not find and for which the global lookup returns a `NotFound`
error, `Prepare` returns that very error, right after the two lookups: no
inference shape is queried or set. -/
theorem C8_unknown_op_not_found (build : Build) (global : OpRegistry) (handles : Handles)
    (n : RemoteExecuteNode) (msg : String) (hne : n.retvals_ ≠ [])
    (hfind : n.lib_def_.Find n.ndef_.op = none)
    (hglobal : global.LookUp n.ndef_.op = StatusOr.error Code.NOT_FOUND msg) :
    Prepare build global handles n
      = Exec.returned (Status.error Code.NOT_FOUND msg)
          [Event.Find n.ndef_.op, Event.GlobalLookUp n.ndef_.op] := by
  have hempty : n.retvals_.isEmpty = false := by
    cases hr : n.retvals_ with
    | nil => exact absurd hr hne
    | cons a l => rfl
  simp [Prepare, hempty, Prepare.lookup, hfind, hglobal]

/-- C8 at a node whose op `NoSuchOp` no registry knows. -/
theorem C8_unknown_op_not_found_witness :
    (unknown_op_node.retvals_ ≠ []
      ∧ unknown_op_node.lib_def_.Find unknown_op_node.ndef_.op = none
      ∧ example_registry.LookUp unknown_op_node.ndef_.op
          = StatusOr.error Code.NOT_FOUND "Op type not registered") ∧
    Prepare { dcheck := true, graph_def_version := 0 } example_registry good_handles
        unknown_op_node
      = Exec.returned (Status.error Code.NOT_FOUND "Op type not registered")
          [Event.Find "NoSuchOp", Event.GlobalLookUp "NoSuchOp"] :=
  ⟨⟨by decide, rfl, rfl⟩,
   C8_unknown_op_not_found { dcheck := true, graph_def_version := 0 } example_registry
    good_handles unknown_op_node "Op type not registered" (by decide) rfl rfl⟩

/-- C9: for every node with empty `retvals`, whatever its op name, inputs,
registries and handles, `Prepare` returns OK having made no call at all: it
consults neither the function library nor the global registry, and neither
queries nor sets any inference shape. -/
theorem C9_no_outputs_is_noop (build : Build) (global : OpRegistry) (handles : Handles)
    (n : RemoteExecuteNode) (hnil : n.retvals_ = []) :
    Prepare build global handles n = Exec.returned Status.OK [] := by
  simp [Prepare, hnil]

/-- C9 at a node without outputs whose op `NoSuchOp` no registry knows. -/
theorem C9_no_outputs_is_noop_witness :
    no_output_node.retvals_ = []
    ∧ Prepare { dcheck := true, graph_def_version := 0 } example_registry good_handles
        no_output_node = Exec.returned Status.OK [] :=
  ⟨rfl, C9_no_outputs_is_noop { dcheck := true, graph_def_version := 0 } example_registry
    good_handles no_output_node rfl⟩

/-! ## Claims on RunAsync and its completion callback -/

/-- C1, as stated, fails: a node with outputs 7 and 8 whose callback is fired
once with OK and a response carrying one shape only reads the shape list out
of range at index 1; handle 8 has received one `Ref` and no `Unref`. -/
theorem C1_counterexample :
    run_once good_handles false false two_output_node one_shape_response Status.OK
        = Exec.out_of_range [Event.Ref 1, Event.Ref 2, Event.Ref 7, Event.Ref 8,
            Event.StreamingEnqueueAsync two_output_node.request_,
            Event.Unref 1, Event.Unref 2, Event.SetRemoteShape 7 [2, 3] 0, Event.Unref 7]
      ∧ ref_delta (run_once good_handles false false two_output_node one_shape_response
          Status.OK).trace 8 = 1 := by
  constructor <;> rfl

/-- C1 (amended): for every `RunAsync` invocation whose completion callback is
fired once by the client with any status (whether or not any `SetRemoteShape`
call fails), provided that when the status is OK the node has no output or the
response's first queue response carries at least `retvals.length` shapes: the
execution runs to its end; at entry `Ref` is called exactly on the entries of
`inputs` then `retvals`; the callback calls `Unref` exactly on the same
entries; so the net reference-count change of every handle is zero, also when
a handle occurs several times. -/
theorem C1_refcount_balanced (handles : Handles) (vlog_at_dispatch vlog_at_completion : Bool)
    (n : RemoteExecuteNode) (response : EnqueueResponse) (status : Status)
    (hresp : status.ok = true → n.retvals_ = [] ∨
      ∃ qr, response.queue_response[0]? = some qr ∧ n.retvals_.length ≤ qr.shape.length) :
    ∃ completion,
      run_once handles vlog_at_dispatch vlog_at_completion n response status
          = Exec.returned () ((RunAsync vlog_at_dispatch n []).1 ++ completion)
        ∧ refs (RunAsync vlog_at_dispatch n []).1 = n.inputs_ ++ n.retvals_
        ∧ unrefs (RunAsync vlog_at_dispatch n []).1 = []
        ∧ refs completion = []
        ∧ unrefs completion = n.inputs_ ++ n.retvals_
        ∧ ∀ h, ref_delta ((RunAsync vlog_at_dispatch n []).1 ++ completion) h = 0 := by
  obtain ⟨pre, hrun, _, hrf, hu⟩ :=
    Callback.fire_completes handles vlog_at_completion (RunAsync vlog_at_dispatch n []).2
      response status (RunAsync vlog_at_dispatch n []).1 hresp
  obtain ⟨hr1, hu1, _⟩ := RunAsync_refs vlog_at_dispatch n
  have hrf2 : refs (pre ++ [Event.done status, Event.delete_response]) = [] := by
    rw [refs_append, hrf]; rfl
  have hu2 : unrefs (pre ++ [Event.done status, Event.delete_response])
      = n.inputs_ ++ n.retvals_ := by
    rw [unrefs_append, hu]; simp [unrefs, RunAsync]
  refine ⟨pre ++ [Event.done status, Event.delete_response], ?_, hr1, hu1, hrf2, hu2, ?_⟩
  · rw [← List.append_assoc]; exact hrun
  · intro h
    simp [ref_delta, refs_append, unrefs_append, hr1, hu1, hrf2, hu2]

/-- C1 at a node with inputs 1, 2 and outputs 7, 8 whose callback is fired with
OK and two shapes while every `SetRemoteShape` call fails. -/
theorem C1_refcount_balanced_witness :
    (Status.OK.ok = true → two_output_node.retvals_ = [] ∨
      ∃ qr, two_shape_response.queue_response[0]? = some qr
        ∧ two_output_node.retvals_.length ≤ qr.shape.length) ∧
    ∃ completion,
      run_once failing_handles true true two_output_node two_shape_response Status.OK
          = Exec.returned () ((RunAsync true two_output_node []).1 ++ completion)
        ∧ refs (RunAsync true two_output_node []).1 = [1, 2] ++ [7, 8]
        ∧ unrefs (RunAsync true two_output_node []).1 = []
        ∧ refs completion = []
        ∧ unrefs completion = [1, 2] ++ [7, 8]
        ∧ ∀ h, ref_delta ((RunAsync true two_output_node []).1 ++ completion) h = 0 :=
  ⟨fun _ => Or.inr ⟨{ shape := [[2, 3], [4]] }, rfl, by decide⟩,
   C1_refcount_balanced failing_handles true true two_output_node two_shape_response Status.OK
    (fun _ => Or.inr ⟨{ shape := [[2, 3], [4]] }, rfl, by decide⟩)⟩

/-- C2, as stated, fails: a node with outputs 7 and 8 whose callback is fired
once with OK and a response carrying one shape only reads the shape list out
of range at index 1 and never reaches the call of `done`. -/
theorem C2_counterexample :
    run_once good_handles false false two_output_node one_shape_response Status.OK
        = Exec.out_of_range [Event.Ref 1, Event.Ref 2, Event.Ref 7, Event.Ref 8,
            Event.StreamingEnqueueAsync two_output_node.request_,
            Event.Unref 1, Event.Unref 2, Event.SetRemoteShape 7 [2, 3] 0, Event.Unref 7]
      ∧ dones (run_once good_handles false false two_output_node one_shape_response
          Status.OK).trace = [] := by
  constructor <;> rfl

/-- C2 (amended): for every `RunAsync` invocation in which the client fires the
completion callback exactly once with status `st`, provided that when `st` is
OK the node has no output or the response's first queue response carries at
least `retvals.length` shapes: the execution runs to its end and `done` is
invoked exactly once, with `st` unchanged, as the last call but the deletion of
the response; this holds whatever the `SetRemoteShape` calls return, so with
`st` OK and failing `SetRemoteShape` calls `done` is still invoked with OK. -/
theorem C2_done_once_with_status (handles : Handles)
    (vlog_at_dispatch vlog_at_completion : Bool) (n : RemoteExecuteNode)
    (response : EnqueueResponse) (st : Status)
    (hresp : st.ok = true → n.retvals_ = [] ∨
      ∃ qr, response.queue_response[0]? = some qr ∧ n.retvals_.length ≤ qr.shape.length) :
    ∃ before,
      run_once handles vlog_at_dispatch vlog_at_completion n response st
          = Exec.returned () (before ++ [Event.done st, Event.delete_response])
        ∧ dones before = []
        ∧ dones (before ++ [Event.done st, Event.delete_response]) = [st] := by
  obtain ⟨pre, hrun, hd, _, _⟩ :=
    Callback.fire_completes handles vlog_at_completion (RunAsync vlog_at_dispatch n []).2
      response st (RunAsync vlog_at_dispatch n []).1 hresp
  obtain ⟨_, _, hd1⟩ := RunAsync_refs vlog_at_dispatch n
  have hb : dones ((RunAsync vlog_at_dispatch n []).1 ++ pre) = [] := by
    rw [dones_append, hd1, hd]; rfl
  refine ⟨(RunAsync vlog_at_dispatch n []).1 ++ pre, hrun, hb, ?_⟩
  rw [dones_append, hb]; rfl

/-- C2 at a node with outputs 7, 8 whose callback is fired with OK and two
shapes while every `SetRemoteShape` call fails: `done` is invoked with OK. -/
theorem C2_done_once_with_status_witness :
    (Status.OK.ok = true → two_output_node.retvals_ = [] ∨
      ∃ qr, two_shape_response.queue_response[0]? = some qr
        ∧ two_output_node.retvals_.length ≤ qr.shape.length) ∧
    ∃ before,
      run_once failing_handles false false two_output_node two_shape_response Status.OK
          = Exec.returned () (before ++ [Event.done Status.OK, Event.delete_response])
        ∧ dones before = []
        ∧ dones (before ++ [Event.done Status.OK, Event.delete_response]) = [Status.OK] :=
  ⟨fun _ => Or.inr ⟨{ shape := [[2, 3], [4]] }, rfl, by decide⟩,
   C2_done_once_with_status failing_handles false false two_output_node two_shape_response
    Status.OK (fun _ => Or.inr ⟨{ shape := [[2, 3], [4]] }, rfl, by decide⟩)⟩

/-- C3: for every completion callback fired with a non-OK status `st` (an error
code with a message), whatever the trace `tr` before it: the callback runs to
its end; the `Poison` calls it makes are, in order, one per index
`i < retvals.length`, on `retvals[i]` with exactly `st`; all of them come
before the call of `done`, which is followed by the deletion of the response
only; and it calls `SetRemoteShape` on no handle. -/
theorem C3_failure_poisons_every_output (handles : Handles)
    (vlog_at_dispatch vlog_at_completion : Bool) (n : RemoteExecuteNode) (tr0 : Trace)
    (response : EnqueueResponse) (code : Code) (msg : String) (tr : Trace) :
    ∃ before,
      Callback.fire handles vlog_at_completion (RunAsync vlog_at_dispatch n tr0).2 response
          (Status.error code msg) tr
        = Exec.returned ()
            (tr ++ before ++ [Event.done (Status.error code msg), Event.delete_response])
      ∧ (poisons before).length = n.retvals_.length
      ∧ (∀ (i : Nat) (h : TensorHandle), n.retvals_[i]? = some h →
          (poisons before)[i]? = some (h, Status.error code msg))
      ∧ remote_shapes before = []
      ∧ dones before = [] := by
  obtain ⟨pre, hrun, hp, hr, hd, _, _⟩ :=
    Callback.fire_error handles vlog_at_completion (RunAsync vlog_at_dispatch n tr0).2
      response code msg tr
  have hp2 : poisons pre = n.retvals_.map (fun h => (h, Status.error code msg)) := hp
  refine ⟨pre, hrun, by simp [hp2], ?_, hr, hd⟩
  intro i h hi
  simp [hp2, hi]

/-- C4: for every completion callback fired with OK status and a response whose
first queue response carries at least `retvals.length` shapes, whatever the
trace `tr` before it and whatever the `SetRemoteShape` calls return: the
callback runs to its end; the `SetRemoteShape` calls it makes are, in order,
one per index `i < retvals.length`, on `retvals[i]` with the first queue
response's shape at index `i` and the node's device; all of them come before
the call of `done`; and it calls `Poison` on no handle. -/
theorem C4_success_sets_every_remote_shape (handles : Handles)
    (vlog_at_dispatch vlog_at_completion : Bool) (n : RemoteExecuteNode) (tr0 : Trace)
    (response : EnqueueResponse) (qr : QueueResponse) (tr : Trace)
    (hq : response.queue_response[0]? = some qr)
    (hlen : n.retvals_.length ≤ qr.shape.length) :
    ∃ before,
      Callback.fire handles vlog_at_completion (RunAsync vlog_at_dispatch n tr0).2 response
          Status.OK tr
        = Exec.returned () (tr ++ before ++ [Event.done Status.OK, Event.delete_response])
      ∧ (remote_shapes before).length = n.retvals_.length
      ∧ (∀ (i : Nat) (h : TensorHandle) (shape : TensorShapeProto), n.retvals_[i]? = some h → qr.shape[i]? = some shape →
          (remote_shapes before)[i]? = some (h, shape, n.device_))
      ∧ poisons before = []
      ∧ dones before = [] := by
  obtain ⟨pre, hrun, hr, hp, hd, _, _⟩ :=
    Callback.fire_ok handles vlog_at_completion (RunAsync vlog_at_dispatch n tr0).2
      response qr tr hq hlen
  have hr2 : remote_shapes pre
      = List.zipWith (fun h shape => (h, shape, n.device_)) n.retvals_ qr.shape := hr
  refine ⟨pre, hrun, ?_, ?_, hp, hd⟩
  · rw [hr2, List.length_zipWith]; omega
  · intro i h shape hi hsh
    rw [hr2, List.getElem?_zipWith, hi, hsh]

/-- C4 at a node with outputs 7, 8 whose callback is fired with OK and the
shapes `[2,3]` and `[4]` while every `SetRemoteShape` call fails. -/
theorem C4_success_sets_every_remote_shape_witness :
    (two_shape_response.queue_response[0]? = some { shape := [[2, 3], [4]] }
      ∧ two_output_node.retvals_.length ≤ [[2, 3], [4]].length) ∧
    ∃ before,
      Callback.fire failing_handles false (RunAsync false two_output_node []).2
          two_shape_response Status.OK []
        = Exec.returned () ([] ++ before ++ [Event.done Status.OK, Event.delete_response])
      ∧ (remote_shapes before).length = 2
      ∧ (∀ (i : Nat) (h : TensorHandle) (shape : TensorShapeProto), [7, 8][i]? = some h → [[2, 3], [4]][i]? = some shape →
          (remote_shapes before)[i]? = some (h, shape, 0))
      ∧ poisons before = []
      ∧ dones before = [] :=
  ⟨⟨rfl, by decide⟩,
   C4_success_sets_every_remote_shape failing_handles false false two_output_node []
    two_shape_response { shape := [[2, 3], [4]] } [] rfl (by decide)⟩

/-- C10, as stated, fails: fired with OK and a response carrying one shape, the
callback of a node with outputs 7 and 8 poisons no handle; at the missing
index 1 it reads the shape list out of range. -/
theorem C10_counterexample :
    Callback.fire good_handles false (RunAsync false two_output_node []).2
        one_shape_response Status.OK []
      = Exec.out_of_range [Event.Unref 1, Event.Unref 2, Event.SetRemoteShape 7 [2, 3] 0,
          Event.Unref 7]
    ∧ poisons (Callback.fire good_handles false (RunAsync false two_output_node []).2
        one_shape_response Status.OK []).trace = [] := by
  constructor <;> rfl

/-- C10 (amended): for every completion callback fired with OK status and a
response whose first queue response carries fewer shapes than
`retvals.length`, no output handle is poisoned: the callback calls
`SetRemoteShape` on `retvals[i]` with the shape at index `i` for the indices
that have a shape, and at the first missing index it reads the response's
shape list out of range without a check (having called neither `Poison` nor
`done`). -/
theorem C10_short_response_not_poisoned (handles : Handles)
    (vlog_at_dispatch vlog_at_completion : Bool) (n : RemoteExecuteNode) (tr0 : Trace)
    (response : EnqueueResponse) (qr : QueueResponse) (tr : Trace)
    (hq : response.queue_response[0]? = some qr)
    (hlen : qr.shape.length < n.retvals_.length) :
    ∃ calls,
      Callback.fire handles vlog_at_completion (RunAsync vlog_at_dispatch n tr0).2 response
          Status.OK tr
        = Exec.out_of_range (tr ++ calls)
      ∧ poisons calls = []
      ∧ dones calls = []
      ∧ (remote_shapes calls).length = qr.shape.length
      ∧ (∀ (i : Nat) (h : TensorHandle) (shape : TensorShapeProto), n.retvals_[i]? = some h → qr.shape[i]? = some shape →
          (remote_shapes calls)[i]? = some (h, shape, n.device_)) := by
  obtain ⟨pre, hrun, hr, hp, hd, _⟩ :=
    Callback.fire_short handles vlog_at_completion (RunAsync vlog_at_dispatch n tr0).2
      response qr tr hq hlen
  have hr2 : remote_shapes pre
      = List.zipWith (fun h shape => (h, shape, n.device_)) n.retvals_ qr.shape := hr
  refine ⟨pre, hrun, hp, hd, ?_, ?_⟩
  · rw [hr2, List.length_zipWith]; omega
  · intro i h shape hi hsh
    rw [hr2, List.getElem?_zipWith, hi, hsh]

/-- C10 (amended) at a node with outputs 7, 8 whose callback is fired with OK
and a response carrying the single shape `[2,3]`. -/
theorem C10_short_response_not_poisoned_witness :
    (one_shape_response.queue_response[0]? = some { shape := [[2, 3]] }
      ∧ [[2, 3]].length < two_output_node.retvals_.length) ∧
    ∃ calls,
      Callback.fire good_handles false (RunAsync false two_output_node []).2
          one_shape_response Status.OK []
        = Exec.out_of_range ([] ++ calls)
      ∧ poisons calls = []
      ∧ dones calls = []
      ∧ (remote_shapes calls).length = 1
      ∧ (∀ (i : Nat) (h : TensorHandle) (shape : TensorShapeProto), [7, 8][i]? = some h → [[2, 3]][i]? = some shape →
          (remote_shapes calls)[i]? = some (h, shape, 0)) :=
  ⟨⟨rfl, by decide⟩,
   C10_short_response_not_poisoned good_handles false false two_output_node []
    one_shape_response { shape := [[2, 3]] } [] rfl (by decide)⟩

end eager
end tensorflow
